import Mathlib

set_option maxRecDepth 2000

/-!
# Verification of the invoice extraction and reconciliation engine

This file contains a shallow embedding, in Lean 4, of the core of the
`testOcr` invoice-extraction service, together with theorems that settle a
list of claims about it.

Embedding conventions:
* Python floats are modelled as exact rationals (`ℚ`); `round(x, 2)` is
  modelled by `round2`, which rounds half to even (Python's rounding mode),
  applied to the exact rational value.
* Python dictionaries with a fixed key set are modelled as structures;
  optional keys (or keys that may hold `None`) become `Option` fields.
* Python truthiness tests (`if x:`) are modelled explicitly: `None`/absent
  maps to `false`, a number is truthy iff nonzero, a string iff nonempty,
  a list iff nonempty.
* Python `re` patterns are modelled by a small regular-expression AST
  (`RE`) with a backtracking matcher whose enumeration order reproduces
  the leftmost / greedy / alternation-preference semantics of `re` on the
  pattern shapes used by the source (character-class repetition, bounded
  repetition, alternation of literals, optional pieces, word boundaries,
  anchors, a fixed-width negative lookbehind).
* Text is processed over `List Char`; only ASCII behaviour of
  `str.lower`/`str.strip`/character classes is modelled, matching the
  OCR token alphabet the source handles.
* Functions that can raise in Python (an unguarded list index) return
  `Option`; everything that cannot raise is total.
-/

/-- Python `round(q, 2)`: scale by 100, round half to even, scale back. -/
def halfEvenInt (q : ℚ) : ℤ :=
  let f := ⌊q⌋
  let r := q - (f : ℚ)
  if r < 1/2 then f
  else if 1/2 < r then f + 1
  else if f % 2 = 0 then f else f + 1

/-- `round2 q` is Python's `round(q, 2)` on the exact rational value. -/
def round2 (q : ℚ) : ℚ := (halfEvenInt (q * 100) : ℚ) / 100

/-- Truthiness of an optional string (`if place_of_supply:`). -/
def pyTruthyStr : Option String → Bool
  | some s => !(s == "")
  | none => false

/-- Truthiness of an optional number (`if x:` on a float-or-None). -/
def pyTruthyQ : Option ℚ → Bool
  | some q => !(q == 0)
  | none => false

/-! ## `src/services/reconcile.py` -/

/-- The totals dictionary built by `recompute_and_summarize`: all six keys
are always present, so the fields are plain rationals. -/
structure Totals where
  net : ℚ
  tax : ℚ
  gross : ℚ
  cgst : ℚ
  sgst : ℚ
  igst : ℚ
deriving Repr, DecidableEq

/-- An extracted-totals dictionary (the shape produced by
`layout_parser.extract_totals_from_tokens` and consumed by
`build_response`/`reconcile_totals`): every key is optional, and a key is
only ever inserted with a parsed float value, never `None`. -/
structure ExTotals where
  taxable : Option ℚ := none
  net : Option ℚ := none
  tax : Option ℚ := none
  gross : Option ℚ := none
  cgst : Option ℚ := none
  sgst : Option ℚ := none
  igst : Option ℚ := none
  round_off : Option ℚ := none
deriving Repr, DecidableEq

/-- Python dict truthiness for an `ExTotals`: `if extracted_totals:` is
false exactly when no key is present. -/
def ExTotals.isEmpty (e : ExTotals) : Bool :=
  e.taxable.isNone && e.net.isNone && e.tax.isNone && e.gross.isNone &&
  e.cgst.isNone && e.sgst.isNone && e.igst.isNone && e.round_off.isNone

/-- `compute_line_totals(qty, rate, gst)`: net, tax and gross for one line. -/
def compute_line_totals (qty rate gst : ℚ) : ℚ × ℚ × ℚ :=
  let net := round2 (qty * rate)
  let tax := round2 (net * gst)
  let gross := round2 (net + tax)
  (net, tax, gross)

/-- One parsed line row as consumed by `recompute_and_summarize`
(`r.qty.value`, `r.unitPrice.value`, `r.gstRate.value` and the mutable
`r.computed` record). -/
structure LineRow where
  qty : Option ℚ
  unitPrice : Option ℚ
  gstRate : Option ℚ
  computedNet : ℚ := 0
  computedTax : ℚ := 0
  computedGross : ℚ := 0
deriving Repr, DecidableEq

/-- `recompute_and_summarize(rows)`: recompute each line's totals and sum
them into grand totals (each rounded after summation).  The Python
`float(v) if v else 0.0` coercion sends both `None` and `0` to `0.0`,
i.e. `Option.getD 0`.  Returns the updated rows together with the totals
dictionary (the Python version mutates the rows in place). -/
def recompute_and_summarize (rows : List LineRow) : List LineRow × Totals :=
  let upd := rows.map fun r =>
    let q := r.qty.getD 0
    let p := r.unitPrice.getD 0
    let g := r.gstRate.getD 0
    let c := compute_line_totals q p g
    { r with computedNet := c.1, computedTax := c.2.1, computedGross := c.2.2 }
  ⟨upd,
   { net := round2 ((upd.map (·.computedNet)).sum)
     tax := round2 ((upd.map (·.computedTax)).sum)
     gross := round2 ((upd.map (·.computedGross)).sum)
     cgst := round2 0
     sgst := round2 0
     igst := round2 0 }⟩

/-- `reconcile_totals(computed_totals, extracted_totals, tolerance=1.0)`:
if the extracted dict is nonempty, set `round_off_delta` to the rounded
difference of the grosses and flag `reconciled = False` when its absolute
value exceeds the tolerance. -/
def reconcile_totals (computed : Totals) (extracted : ExTotals)
    (tolerance : ℚ := 1) : Bool × ℚ :=
  if extracted.isEmpty then (true, 0)
  else
    let extracted_gross := extracted.gross.getD 0
    let round_off_delta := round2 (extracted_gross - computed.gross)
    (if tolerance < |round_off_delta| then false else true, round_off_delta)

/-- `split_tax_breakdown(totals, place_of_supply)`: the branch is on the
truthiness of `place_of_supply` alone — a truthy place of supply selects
the IGST split, an absent/empty one the CGST/SGST split. -/
def split_tax_breakdown (totals : Totals) (place_of_supply : Option String) :
    Totals :=
  let tax := totals.tax
  if pyTruthyStr place_of_supply then
    { totals with igst := tax, cgst := 0, sgst := 0 }
  else
    { totals with cgst := round2 (tax / 2), sgst := round2 (tax / 2), igst := 0 }

/-! ## Text utilities (ASCII fragment of Python `str` methods) -/

/-- Python whitespace for `str.strip` / `\s` (ASCII fragment). -/
def isPySpaceCh (c : Char) : Bool :=
  c = ' ' || c = '\t' || c = '\n' || c = '\x0d' || c = '\x0b' || c = '\x0c'

/-- `\d` (ASCII fragment). -/
def isDigitCh (c : Char) : Bool := c.isDigit

/-- `[A-Za-z]`. -/
def isAlphaCh (c : Char) : Bool :=
  ('a' ≤ c && c ≤ 'z') || ('A' ≤ c && c ≤ 'Z')

/-- `\w` (ASCII fragment). -/
def isWordCh (c : Char) : Bool := isAlphaCh c || isDigitCh c || c = '_'

/-- `str.lower` (ASCII fragment). -/
def lowerL (cs : List Char) : List Char := cs.map Char.toLower

/-- `str.strip()`. -/
def stripL (cs : List Char) : List Char :=
  ((cs.dropWhile isPySpaceCh).reverse.dropWhile isPySpaceCh).reverse

/-- `sep.join(pieces)`. -/
def joinSep (sep : List Char) : List (List Char) → List Char
  | [] => []
  | [x] => x
  | x :: y :: rest => x ++ sep ++ joinSep sep (y :: rest)

/-- Does `needle` occur at position `i` of `hay`? -/
def occursAt (needle hay : List Char) (i : ℕ) : Bool :=
  match needle with
  | [] => true
  | c :: rest =>
    match hay.get? i with
    | some d => c == d && occursAt rest hay (i + 1)
    | none => false

/-- Python `needle in hay` on strings. -/
def containsSub (hay needle : List Char) : Bool :=
  (List.range (hay.length + 1)).any (occursAt needle hay)

/-- Numeric value of a digit run. -/
def natOfDigits (cs : List Char) : ℕ :=
  cs.foldl (fun a c => a * 10 + (c.toNat - '0'.toNat)) 0

/-- Python `float(s)` on the character set `[0-9.\-]` that survives
`normalize_amount`'s cleaning: an optional leading minus, digits with at
most one decimal point, and at least one digit; anything else raises
(`none`). -/
def parsePyFloat (cs : List Char) : Option ℚ :=
  let core := fun (ds : List Char) =>
    let ip := ds.takeWhile isDigitCh
    let rest := ds.drop ip.length
    match rest with
    | [] => if ip.isEmpty then none else some ((natOfDigits ip : ℚ))
    | '.' :: fp =>
      if fp.all isDigitCh && (!ip.isEmpty || !fp.isEmpty) then
        some ((natOfDigits ip : ℚ) + (natOfDigits fp : ℚ) / (10 : ℚ) ^ fp.length)
      else none
    | _ => none
  match cs with
  | '-' :: rest => (core rest).map (fun q => -q)
  | _ => core cs

/-- `normalize_amount(s)` for a string argument: drop `₹` and commas,
strip, keep only `[0-9.\-]`, parse as float and round to 2 decimals;
`None` on a parse failure. -/
def normalize_amount (s : List Char) : Option ℚ :=
  let s1 := s.filter fun c => !(c = '₹' || c = ',')
  let s2 := stripL s1
  let s3 := s2.filter fun c => isDigitCh c || c = '.' || c = '-'
  (parsePyFloat s3).map round2

/-- `normalize_amount` applied to a float-or-`None` argument (as in
`try_fix_unit_tax` / `recompute_totals_from_items`): `str(x)` round-trips
the value, so this is rounding to 2 decimals under `Option.map`. -/
def normalize_amount_num (x : Option ℚ) : Option ℚ := x.map round2

/-! ## A small regular-expression engine

The AST below covers exactly the pattern shapes used by the source:
literals (with a case-insensitivity switch applied at match time),
single-character classes, greedy/lazy bounded class repetition,
sequencing, alternation (left-preferring), optional pieces (greedy),
capture groups, a star over a composite that always consumes input
(`(?:,[0-9]{3})*`), word boundaries, start/end anchors, and the
fixed-width negative lookbehind `(?<!Sub\s)`.  The matcher enumerates
candidate match ends in backtracking preference order, so taking the
head of the enumeration reproduces Python `re` semantics on these
patterns. -/

inductive RE where
  | eps : RE
  | lit : List Char → RE
  | cls : (Char → Bool) → RE
  | rep : (Char → Bool) → ℕ → Option ℕ → Bool → RE
  | seq : RE → RE → RE
  | alt : RE → RE → RE
  | opt : RE → RE
  | group : ℕ → RE → RE
  | starC : RE → RE
  | wordB : RE
  | startA : RE
  | endA : RE
  | nbehind : List (Char → Bool) → RE

/-- Capture records: `(group index, start, stop)`, most recent first. -/
abbrev Caps := List (ℕ × ℕ × ℕ)

/-- Case-insensitive-or-not character comparison. -/
def chEq (ci : Bool) (a b : Char) : Bool :=
  if ci then a.toLower == b.toLower else a == b

/-- Does the literal `cs` (pattern side) match `full` at `i`? -/
def litAt (ci : Bool) (full cs : List Char) (i : ℕ) : Bool :=
  match cs with
  | [] => true
  | c :: rest =>
    match full.get? i with
    | some d => chEq ci c d && litAt ci full rest (i + 1)
    | none => false

/-- Is position `i` a word boundary (`\b`) of `full`? -/
def wordBoundaryAt (full : List Char) (i : ℕ) : Bool :=
  let at_ := fun (j : ℕ) => match full.get? j with
    | some c => isWordCh c
    | none => false
  let prev := match i with
    | 0 => false
    | j + 1 => at_ j
  prev != at_ i

/-- Does the fixed-width predicate word `ps` match just before `i`? -/
def behindMatch (full : List Char) (ps : List (Char → Bool)) (i : ℕ) : Bool :=
  decide (ps.length ≤ i) &&
    (List.range ps.length).all fun k =>
      match ps.get? k, full.get? (i - ps.length + k) with
      | some p, some c => p c
      | _, _ => false

/-- Structural size of a pattern (used to compute a sufficient fuel). -/
def RE.size : RE → ℕ
  | .seq a b => a.size + b.size + 1
  | .alt a b => a.size + b.size + 1
  | .opt a => a.size + 1
  | .group _ a => a.size + 1
  | .starC a => a.size + 1
  | _ => 1

/-- The backtracking matcher: all candidate `(match end, captures)` pairs
for pattern `re` at position `i` of `full`, in preference order.  The
recursion is structural on `fuel`, which every call decrements; since a
`starC` body must consume input on each iteration, a fuel of
`(re.size + 2) * (full.length + 2)` always suffices, and the `0` case is
never reached from the drivers below. -/
def mrun (ci : Bool) (full : List Char) :
    ℕ → RE → ℕ → Caps → List (ℕ × Caps)
  | 0, _, _, _ => []
  | fuel + 1, re, i, cp =>
    match re with
    | .eps => [(i, cp)]
    | .lit cs => if litAt ci full cs i then [(i + cs.length, cp)] else []
    | .cls p =>
      (match full.get? i with
       | some c => if p c then [(i + 1, cp)] else []
       | none => [])
    | .rep p lo max? lazy =>
      let avail := ((full.drop i).takeWhile p).length
      let hi := match max? with
        | some m => min m avail
        | none => avail
      if hi < lo then []
      else (List.range (hi + 1 - lo)).map fun d =>
        (i + (if lazy then lo + d else hi - d), cp)
    | .seq a b =>
      (mrun ci full fuel a i cp).bind fun r => mrun ci full fuel b r.1 r.2
    | .alt a b => mrun ci full fuel a i cp ++ mrun ci full fuel b i cp
    | .opt a => mrun ci full fuel a i cp ++ [(i, cp)]
    | .group n a =>
      (mrun ci full fuel a i cp).map fun r => (r.1, (n, i, r.1) :: r.2)
    | .starC a =>
      (((mrun ci full fuel a i cp).filter fun r => i < r.1).bind fun r =>
        mrun ci full fuel (.starC a) r.1 r.2) ++ [(i, cp)]
    | .wordB => if wordBoundaryAt full i then [(i, cp)] else []
    | .startA => if i == 0 then [(i, cp)] else []
    | .endA => if i == full.length then [(i, cp)] else []
    | .nbehind ps => if behindMatch full ps i then [] else [(i, cp)]

/-- Fuel that always suffices for running `re` on `full`. -/
def reFuel (re : RE) (full : List Char) : ℕ :=
  (re.size + 2) * (full.length + 2)

/-- Best match of `re` anchored at position `i` (Python `re` would return
this match), if any. -/
def reMatchAt (ci : Bool) (re : RE) (full : List Char) (i : ℕ) :
    Option (ℕ × Caps) :=
  (mrun ci full (reFuel re full) re i []).head?

/-- `re.search`: leftmost match as `(start, stop, captures)`. -/
def reSearch (ci : Bool) (re : RE) (full : List Char) :
    Option (ℕ × ℕ × Caps) :=
  (List.range (full.length + 1)).findSome? fun i =>
    (reMatchAt ci re full i).map fun r => (i, r.1, r.2)

/-- The substring `full[a:b]`. -/
def subSpan (full : List Char) (a b : ℕ) : List Char :=
  (full.drop a).take (b - a)

/-- All non-overlapping match spans, leftmost first (`re.findall`). -/
def goSpans (ci : Bool) (re : RE) (full : List Char) :
    ℕ → ℕ → List (ℕ × ℕ)
  | 0, _ => []
  | fuel + 1, pos =>
    match (List.range (full.length + 1 - pos)).findSome? (fun d =>
      let i := pos + d
      (reMatchAt ci re full i).map fun r => (i, r.1)) with
    | none => []
    | some (i, j) => (i, j) :: goSpans ci re full fuel (if i < j then j else i + 1)

/-- Spans of `re.findall` over `full`. -/
def reFindSpans (ci : Bool) (re : RE) (full : List Char) : List (ℕ × ℕ) :=
  goSpans ci re full (full.length + 2) 0

/-- `re.findall` (whole-match strings; every findall in the source either
has no group or one group spanning the whole pattern). -/
def reFindAll (ci : Bool) (re : RE) (full : List Char) : List (List Char) :=
  (reFindSpans ci re full).map fun s => subSpan full s.1 s.2

/-- Replace every match span by `repl` (`re.sub` with a literal
replacement). -/
def rebuildSub (full : List Char) (repl : List Char) :
    ℕ → List (ℕ × ℕ) → List Char
  | pos, [] => full.drop pos
  | pos, (a, b) :: rest => subSpan full pos a ++ repl ++ rebuildSub full repl b rest

/-- `re.sub(re, repl, full)` for a literal `repl`. -/
def reSub (ci : Bool) (re : RE) (full repl : List Char) : List Char :=
  rebuildSub full repl 0 (reFindSpans ci re full)

/-- Pieces of `full` between match spans (`re.split`). -/
def splitGo (full : List Char) : ℕ → List (ℕ × ℕ) → List (List Char)
  | pos, [] => [full.drop pos]
  | pos, (a, b) :: rest => subSpan full pos a :: splitGo full b rest

/-- `re.split(re, full)`. -/
def reSplit (ci : Bool) (re : RE) (full : List Char) : List (List Char) :=
  splitGo full 0 (reFindSpans ci re full)

/-- `m.group(n)`: most recent capture of group `n` (Python keeps the last
one), `none` when the group did not participate. -/
def reCapGroup (full : List Char) (caps : Caps) (n : ℕ) : Option (List Char) :=
  (caps.find? fun t => t.1 == n).map fun t => subSpan full t.2.1 t.2.2

/-- `re.search(...).group(n)` composed, `None`-propagating. -/
def reSearchGroup (ci : Bool) (re : RE) (full : List Char) (n : ℕ) :
    Option (List Char) :=
  (reSearch ci re full).bind fun r => reCapGroup full r.2.2 n

/-! Pattern-building helpers. -/

/-- Literal pattern from a string. -/
def slit (s : String) : RE := .lit s.data

/-- Right-nested sequence. -/
def seqL : List RE → RE
  | [] => .eps
  | [r] => r
  | r :: rest => .seq r (seqL rest)

/-- Left-preferring alternation of a list. -/
def altL : List RE → RE
  | [] => .eps
  | [r] => r
  | r :: rest => .alt r (altL rest)

/-- `\d+`. -/
def dPlus : RE := .rep isDigitCh 1 none false

/-- `\d` repeated between `lo` and `hi` times (greedy). -/
def dRep (lo : ℕ) (hi : Option ℕ) : RE := .rep isDigitCh lo hi false

/-- `\s*`. -/
def sStar : RE := .rep isPySpaceCh 0 none false

/-- `\s+`. -/
def sPlus : RE := .rep isPySpaceCh 1 none false

/-! ## `src/services/invoice_extractor.py` — tokenizer and row grouper -/

/-- A raw OCR token dictionary as consumed by `tokens_from_fulltext`:
every key may be missing. -/
structure RawTok where
  text : Option String := none
  bbox : Option (List (ℚ × ℚ)) := none
  conf : Option ℚ := none
  confidence : Option ℚ := none
deriving Repr

/-- Python `a or b` on a float-or-`None` and a fallback. -/
def pyOrQ (a : Option ℚ) (dflt : ℚ) : ℚ :=
  match a with
  | some x => if x == 0 then dflt else x
  | none => dflt

/-- `token_conf(token)`: `token.get("conf") or token.get("confidence") or 1.0`. -/
def token_conf (b : RawTok) : ℚ := pyOrQ b.conf (pyOrQ b.confidence 1)

/-- A normalized geometric token (the dictionary built by
`tokens_from_fulltext`; the raw `bbox` is carried along in Python but
never read downstream, so it is not stored here). -/
structure Token where
  text : List Char
  cx : ℚ
  cy : ℚ
  left : ℚ
  conf : ℚ
  idx : ℕ
  page : ℕ := 0
deriving Repr, DecidableEq, Inhabited

/-- `bbox_center(bbox)` (callers guarantee `bbox` nonempty). -/
def bbox_center (bbox : List (ℚ × ℚ)) : ℚ × ℚ :=
  ((bbox.map Prod.fst).sum / bbox.length, (bbox.map Prod.snd).sum / bbox.length)

/-- `bbox_left(bbox)` = `min(p[0] for p in bbox)` (callers guarantee
nonempty; the `[]` case is unreachable). -/
def bbox_left : List (ℚ × ℚ) → ℚ
  | [] => 0
  | p :: rest => (rest.map Prod.fst).foldl min p.1

/-- Stable insertion into a list sorted by the total boolean preorder
`le`: the element goes after existing elements it ties with (this makes
`pySortBy` agree with Python's stable `sort`). -/
def insSorted (le : α → α → Bool) (x : α) : List α → List α
  | [] => [x]
  | y :: rest => if le y x then y :: insSorted le x rest else x :: y :: rest

/-- Python stable `sort(key=...)`, as insertion sort with respect to a
total boolean preorder. -/
def pySortBy (le : α → α → Bool) (l : List α) : List α :=
  l.foldl (fun acc x => insSorted le x acc) []

/-- Sort key `(page, cy, left)` of `tokens_from_fulltext`. -/
def tokLe (a b : Token) : Bool :=
  decide (a.page < b.page) ||
    (a.page == b.page &&
      (decide (a.cy < b.cy) || (a.cy == b.cy && decide (a.left ≤ b.left))))

/-- The page-break pass of `tokens_from_fulltext`: a sharp upward jump of
more than 1000px starts a new page. -/
def assignPages : List Token → ℕ → ℚ → List Token
  | [], _, _ => []
  | t :: rest, page, prev_cy =>
    let page' := if 0 < prev_cy ∧ t.cy < prev_cy - 1000 then page + 1 else page
    { t with page := page' } :: assignPages rest page' t.cy

/-- `tokens_from_fulltext(fullText)`: keep tokens with nonempty stripped
text and a nonempty bbox, compute geometry, detect page breaks, and sort
by `(page, cy, left)`. -/
def tokens_from_fulltext (fullText : List RawTok) : List Token :=
  let toks := fullText.enum.filterMap fun p =>
    let idx := p.1
    let b := p.2
    let txt := stripL (b.text.getD "").data
    match b.bbox with
    | none => none
    | some bbox =>
      if txt.isEmpty || bbox.isEmpty then none
      else
        let c := bbox_center bbox
        some { text := txt, cx := c.1, cy := c.2, left := bbox_left bbox,
               conf := token_conf b, idx := idx : Token }
  pySortBy tokLe (assignPages toks 0 (-1))

/-- `statistics.median` of the nonempty list `x :: xs`. -/
def medianNE (x : ℚ) (xs : List ℚ) : ℚ :=
  let s := List.insertionSort (· ≤ ·) (x :: xs)
  let n := s.length
  if n % 2 == 1 then s.getD (n / 2) 0
  else (s.getD (n / 2 - 1) 0 + s.getD (n / 2) 0) / 2

/-- A text row. -/
abbrev Row := List Token

/-- The loop of `group_rows`: the open row is carried as a nonempty
`(first, rest)` pair, mirroring the Python invariant that `rows[-1]` is
never empty (so `median` never sees an empty list). -/
def groupGo (y_tol : ℚ) :
    List Token → Token × List Token → List Row → List Row
  | [], cur, acc => acc ++ [cur.1 :: cur.2]
  | t :: rest, cur, acc =>
    let med := medianNE cur.1.cy (cur.2.map (·.cy))
    if |t.cy - med| ≤ y_tol then groupGo y_tol rest (cur.1, cur.2 ++ [t]) acc
    else groupGo y_tol rest (t, []) (acc ++ [cur.1 :: cur.2])

/-- `group_rows(tokens, y_tol)`: greedy clustering by distance to the
running row median, then each row re-sorted by `left`. -/
def group_rows (tokens : List Token) (y_tol : ℚ := 14) : List Row :=
  let rows := match tokens with
    | [] => []
    | t :: rest => groupGo y_tol rest (t, []) []
  rows.map (pySortBy (fun a b => decide (a.left ≤ b.left)))

/-! ## Header detection (`find_header_soft`) -/

/-- The row text joined by single spaces. -/
def rowText (row : Row) : List Char := joinSep [' '] (row.map (·.text))

/-- The lowercased joined row text. -/
def rowTextLower (row : Row) : List Char := lowerL (rowText row)

/-- `HEADER_KEYWORDS`. -/
def HEADER_KEYWORDS : List (List Char) :=
  ["description", "hsn", "quantity", "qty", "rate", "amount", "unit price",
   "taxable"].map String.data

/-- Strategy 1 score: one point per header keyword contained in the
lowercased row text. -/
def headerScore (row : Row) : ℕ :=
  HEADER_KEYWORDS.countP fun k => containsSub (rowTextLower row) k

/-- `\d+\.\d{2}|\d+\s*(?:PCS|Bag|KG)` (strategy 2's numeric-token count,
matched case-insensitively). -/
def numericTokPat : RE :=
  .alt (seqL [dPlus, .lit ['.'], dRep 2 (some 2)])
    (seqL [dPlus, sStar, altL [slit "PCS", slit "Bag", slit "KG"]])

/-- `\d+\.\d{2}` (strategy 3's decimal-amount count). -/
def decAmtPat : RE := seqL [dPlus, .lit ['.'], dRep 2 (some 2)]

/-- Strategy 1: first row among the first 30 whose keyword score is ≥ 2
and that has ≥ 3 tokens. -/
def strat1 (rows : List Row) : Option (ℕ × ℕ) :=
  (List.range (min 30 rows.length)).findSome? fun i =>
    match rows.get? i with
    | some row =>
      if 2 ≤ headerScore row ∧ 3 ≤ row.length then some (i, i + 1) else none
    | none => none

/-- Strategy 2: a `quantity`/`hsn/sac`/`hsn code` row among the first 50;
scan up to 9 following rows for a data row with ≥ 2 numeric tokens and
≥ 3 tokens (columns from the data row, parsing from the row after the
keyword row); otherwise use the keyword row itself if it has ≥ 3 tokens,
else keep scanning. -/
def strat2 (rows : List Row) : Option (ℕ × ℕ) :=
  (List.range (min 50 rows.length)).findSome? fun i =>
    match rows.get? i with
    | none => none
    | some row =>
      let text := rowTextLower row
      if containsSub text "quantity".data || containsSub text "hsn/sac".data ||
         containsSub text "hsn code".data then
        match (List.range' (i + 1) (min (i + 10) rows.length - (i + 1))).findSome?
            (fun j =>
              match rows.get? j with
              | some rj =>
                if 2 ≤ (reFindAll true numericTokPat (rowText rj)).length ∧
                   3 ≤ rj.length then some j else none
              | none => none) with
        | some j => some (j, i + 1)
        | none => if 3 ≤ row.length then some (i, i + 1) else none
      else none

/-- Strategy 2b: a `description of goods`/`item name` row among the first
40; scan up to 7 following rows for one with ≥ 4 tokens. -/
def strat2b (rows : List Row) : Option (ℕ × ℕ) :=
  (List.range (min 40 rows.length)).findSome? fun i =>
    match rows.get? i with
    | none => none
    | some row =>
      let text := rowTextLower row
      if containsSub text "description of goods".data ||
         containsSub text "item name".data then
        match (List.range' (i + 1) (min (i + 8) rows.length - (i + 1))).findSome?
            (fun j =>
              match rows.get? j with
              | some rj => if 4 ≤ rj.length then some j else none
              | none => none) with
        | some j => some (j, i + 1)
        | none => some (i, i + 1)
      else none

/-- Strategy 3: first row in `rows[10:50]` with ≥ 3 two-decimal amounts
and ≥ 3 tokens; it is its own anchor. -/
def strat3 (rows : List Row) : Option (ℕ × ℕ) :=
  (List.range' 10 (min 50 rows.length - 10)).findSome? fun i =>
    match rows.get? i with
    | some row =>
      if 3 ≤ (reFindAll false decAmtPat (rowText row)).length ∧ 3 ≤ row.length
      then some (i, i) else none
    | none => none

/-- Strategy 4: first row in `rows[8:50]` with ≥ 4 tokens. -/
def strat4 (rows : List Row) : Option (ℕ × ℕ) :=
  (List.range' 8 (min 50 rows.length - 8)).findSome? fun i =>
    match rows.get? i with
    | some row => if 4 ≤ row.length then some (i, i) else none
    | none => none

/-- `find_header_soft(rows)`: the strategy ladder, first hit wins;
`none` plays the role of Python's `(None, None)`. -/
def find_header_soft (rows : List Row) : Option (ℕ × ℕ) :=
  match strat1 rows with
  | some r => some r
  | none =>
    match strat2 rows with
    | some r => some r
    | none =>
      match strat2b rows with
      | some r => some r
      | none =>
        match strat3 rows with
        | some r => some r
        | none => strat4 rows

/-! ## Column model (`compute_bounds`, `assign_cols`) -/

/-- Midpoints of consecutive elements. -/
def midpoints : List ℚ → List ℚ
  | a :: b :: rest => (a + b) / 2 :: midpoints (b :: rest)
  | _ => []

/-- The bound-building loop of `compute_bounds`: one bound per midpoint,
the first extending to `-1e6 - expand` and the last to `1e6`. -/
def buildBounds (expand : ℚ) : ℚ → List ℚ → List (ℚ × ℚ)
  | left, [] => [(left - expand, 1000000)]
  | left, m :: ms => (left - expand, m + expand) :: buildBounds expand m ms

/-- The tiny-bound merge loop: a bound narrower than 60px is absorbed
into its left neighbour. -/
def mergeLoop : ℚ × ℚ → List (ℚ × ℚ) → List (ℚ × ℚ)
  | last, [] => [last]
  | last, (l, r) :: rest =>
    if r - l < 60 then mergeLoop (last.1, r) rest
    else last :: mergeLoop (l, r) rest

/-- `merged` list of `compute_bounds` (first bound always kept). -/
def merge_small : List (ℚ × ℚ) → List (ℚ × ℚ)
  | [] => []
  | b :: rest => mergeLoop b rest

/-- `compute_bounds` on the extracted `left` coordinates. -/
def compute_bounds_xs (xs : List ℚ) (expand : ℚ := 12) : List (ℚ × ℚ) :=
  if xs.length < 3 then [(-1000000, 1000000)]
  else
    let xs_sorted := List.insertionSort (· ≤ ·) xs
    merge_small (buildBounds expand (-1000000) (midpoints xs_sorted))

/-- `compute_bounds(header_row)` (default `expand_px=12`). -/
def compute_bounds (header_row : Row) : List (ℚ × ℚ) :=
  compute_bounds_xs (header_row.map (·.left))

/-- The column index a center `cx` is assigned to: first containing
bound, else the bound with the nearest midpoint (first such on ties,
as `list.index(min(...))`). -/
def assignIdx (bounds : List (ℚ × ℚ)) (cx : ℚ) : ℕ :=
  match bounds.findIdx? (fun b => decide (b.1 ≤ cx) && decide (cx ≤ b.2)) with
  | some i => i
  | none =>
    let dists := bounds.map fun b => |cx - (b.1 + b.2) / 2|
    let minD := match dists with
      | [] => 0
      | d :: rest => rest.foldl min d
    dists.findIdx (fun d => d == minD)

/-- `assign_cols(row, bounds)`: tokens of `row` bucketed by column, in
row order. -/
def assign_cols (row : Row) (bounds : List (ℚ × ℚ)) : List (List Token) :=
  (List.range bounds.length).map fun i =>
    row.filter fun t => assignIdx bounds t.cx == i

/-- `col_text(col)`. -/
def col_text (col : List Token) : List Char :=
  stripL (joinSep [' '] (col.map (·.text)))

/-- `%|\bpercent\b` (percentage exclusion in `extract_amount_from_col`). -/
def pctPat : RE := .alt (.lit ['%']) (seqL [.wordB, slit "percent", .wordB])

/-- `[0-9]{1,3}(?:,[0-9]{3})*(?:\.[0-9]{2})` (grouped two-decimal
amount). -/
def amtGroupedPat : RE :=
  seqL [dRep 1 (some 3), .starC (.seq (.lit [',']) (dRep 3 (some 3))),
        .lit ['.'], dRep 2 (some 2)]

/-- `\d+\.\d+` (fallback decimal amount). -/
def decAnyPat : RE := seqL [dPlus, .lit ['.'], dPlus]

/-- `extract_amount_from_col(col)`: refuse percentages, then take the
last grouped-amount match (falling back to any decimal) and normalize. -/
def extract_amount_from_col (col : List Token) : Option ℚ :=
  let txt := col_text col
  if (reSearch true pctPat txt).isSome then none
  else
    let m := reFindAll false amtGroupedPat txt
    let m := if m.isEmpty then reFindAll false decAnyPat txt else m
    match m.getLast? with
    | none => none
    | some last => normalize_amount last

/-! ## Line items and the table parsers -/

/-- A raw extracted line item (the dictionaries produced by
`parse_table`, `parse_transposed_table` and `parse_item_from_line`;
`gstRatePct` is a key only the fallback parser sometimes adds). -/
structure Item where
  description : Option (List Char) := none
  hsn : Option (List Char) := none
  quantity : Option (List Char) := none
  unitPrice : Option ℚ := none
  taxableValue : Option ℚ := none
  gstRatePct : Option ℚ := none
deriving Repr, DecidableEq, Inhabited

/-- Truthiness of an optional string value. -/
def pyTruthyStrL : Option (List Char) → Bool
  | some s => !s.isEmpty
  | none => false

/-- `(\d{4,8})` (plain four-to-eight digit run, with group). -/
def hsnLoosePat : RE := .group 1 (dRep 4 (some 8))

/-- `\b(\d{4,8})\b`. -/
def hsnWordPat : RE := seqL [.wordB, .group 1 (dRep 4 (some 8)), .wordB]

/-- `.*` without DOTALL: any character but a newline. -/
def dotStar : RE := .rep (fun c => c ≠ '\n') 0 none false

/-- `\b(total|sub total|amount chargeable)\b` (transposed-parser stop
marker). -/
def markerTransPat : RE :=
  seqL [.wordB,
        .group 1 (altL [slit "total", slit "sub total", slit "amount chargeable"]),
        .wordB]

/-- `\d+\s*(?:PCS|Bag|KG|Nos|pcs|bag)` (transposed quantity sniffing,
matched case-insensitively). -/
def qtyUnitsTransPat : RE :=
  seqL [dPlus, sStar,
        altL [slit "PCS", slit "Bag", slit "KG", slit "Nos", slit "pcs", slit "bag"]]

/-- `\b(State Name|GSTIN|Buyer|Bill to|Ram Krishna Path|M/s)\b.*`
(transposed description cleanup). -/
def transDescCleanPat : RE :=
  seqL [.wordB,
        .group 1 (altL [slit "State Name", slit "GSTIN", slit "Buyer",
                        slit "Bill to", slit "Ram Krishna Path", slit "M/s"]),
        .wordB, dotStar]

/-- The forward field-row state of `parse_transposed_table`. -/
structure FieldRows where
  hsn : Option Row := none
  quantity : Option Row := none
  rate : Option Row := none
  amount : Option Row := none
deriving Repr

/-- Backward pass of `parse_transposed_table` over the up-to-10 rows
before `start_idx`: remember the last qualifying HSN row; collect
description candidates while no HSN row has been seen. -/
def transBack (seg : List Row) : FieldRows × List Row :=
  seg.foldl
    (fun st row =>
      let fr := st.1
      let dc := st.2
      let lt := rowTextLower row
      if containsSub lt "hsn".data && 3 ≤ row.length then
        ({ fr with hsn := some row }, dc)
      else if 3 ≤ row.length && fr.hsn.isNone &&
          !(["invoice", "buyer", "seller", "gstin", "state name",
             "bill to"].any fun kw => containsSub lt kw.data) then
        (fr, dc ++ [row])
      else (fr, dc))
    ({}, [])

/-- Forward pass of `parse_transposed_table`: classify up to 30 rows from
`start_idx` into field rows, stopping at a totals marker.  The branch
structure mirrors the Python `elif` chain exactly (a branch whose guard
holds is taken even when its body assigns nothing). -/
def transFwd : List Row → FieldRows → FieldRows
  | [], fr => fr
  | row :: rest, fr =>
    let lt := rowTextLower row
    if (reSearch true markerTransPat lt).isSome then fr
    else
      let fr' :=
        if containsSub lt "quantity".data || containsSub lt "qty".data then
          { fr with quantity := some row }
        else if containsSub lt "rate".data && 3 ≤ row.length then
          (if fr.rate.isNone then { fr with rate := some row } else fr)
        else if containsSub lt "amount".data && 3 ≤ row.length then
          { fr with amount := some row }
        else if containsSub lt "hsn".data then
          (if 3 ≤ row.length then { fr with hsn := some row } else fr)
        else if 3 ≤ row.length && fr.quantity.isNone then
          (if 2 ≤ (reFindAll true qtyUnitsTransPat (rowText row)).length then
            { fr with quantity := some row } else fr)
        else if 3 ≤ row.length then
          let amounts := reFindAll false decAmtPat (rowText row)
          if 2 ≤ amounts.length then
            let avg := (amounts.map fun a => (parsePyFloat a).getD 0).sum / amounts.length
            if 100 < avg && fr.amount.isNone then { fr with amount := some row }
            else if avg < 100 && fr.rate.isNone then { fr with rate := some row }
            else fr
          else fr
        else fr
      transFwd rest fr'

/-- One column of a transposed table read off as an item. -/
def transItem (fr : FieldRows) (dc : List Row) (col_idx : ℕ) : Item :=
  let description :=
    if !dc.isEmpty && col_idx < dc.length then
      match dc.get? col_idx with
      | some desc_row =>
        (match desc_row.get? col_idx with
         | some tok =>
           let cleaned := reSub true transDescCleanPat tok.text []
           if (stripL cleaned).isEmpty then none else some (stripL cleaned)
         | none => none)
      | none => none
    else none
  let quantity := fr.quantity.bind fun qrow => (qrow.get? col_idx).map (·.text)
  let unitPrice := fr.rate.bind fun rrow =>
    (rrow.get? col_idx).bind fun tok => normalize_amount tok.text
  let taxableValue := fr.amount.bind fun arow =>
    (arow.get? col_idx).bind fun tok => normalize_amount tok.text
  let hsn := fr.hsn.bind fun hrow =>
    (hrow.get? col_idx).bind fun tok => reSearchGroup false hsnLoosePat tok.text 1
  { description := description, hsn := hsn, quantity := quantity,
    unitPrice := unitPrice, taxableValue := taxableValue }

/-- `parse_transposed_table(rows, start_idx, bounds)` (the `bounds`
argument is accepted and ignored, as in the source). -/
def parse_transposed_table (rows : List Row) (start_idx : ℕ)
    (_bounds : List (ℚ × ℚ)) : List Item :=
  let back := transBack ((rows.drop (start_idx - 10)).take
    (start_idx - (start_idx - 10)))
  let fr := transFwd ((rows.drop start_idx).take
    (min (start_idx + 30) rows.length - start_idx)) back.1
  let dc := back.2
  let num_cols :=
    match fr.quantity with
    | some q => q.length
    | none =>
      match fr.rate with
      | some r => r.length
      | none =>
        match fr.amount with
        | some a => a.length
        | none => 0
  if num_cols == 0 then []
  else
    ((List.range num_cols).map (transItem fr dc)).filter fun item =>
      pyTruthyQ item.taxableValue || pyTruthyQ item.unitPrice

/-- The sampling loop of `is_transposed_table`: left positions of rows
with ≥ 3 tokens, stopping once 5 are collected. -/
def collectPos : List Row → List (List ℚ) → List (List ℚ)
  | [], acc => acc
  | row :: rest, acc =>
    if 3 ≤ row.length then
      let acc' := acc ++ [row.map (·.left)]
      if 5 ≤ acc'.length then acc' else collectPos rest acc'
    else collectPos rest acc

/-- `is_transposed_table(rows, start_idx, end_idx)`: at least two sampled
rows must agree with the first sampled row on ≥ 80% of their `left`
positions (within 20px). -/
def is_transposed_table (rows : List Row) (start_idx end_idx : ℕ) : Bool :=
  if end_idx - start_idx < 3 then false
  else
    let window := (rows.drop start_idx).take (min (start_idx + 15) end_idx - start_idx)
    match collectPos window [] with
    | [] => false
    | [_] => false
    | first :: restPos =>
      let matches_found := restPos.countP fun cols =>
        if cols.length == first.length then
          let m := (first.zip cols).countP fun p => decide (|p.1 - p.2| < 20)
          decide ((first.length : ℚ) * (8 / 10) ≤ (m : ℚ))
        else false
      decide (2 ≤ matches_found)

/-- `\b(total|sub total|amount chargeable|round off|tax amount)\b` — the
stop marker of `parse_table` (note: no `invoice amount in words`). -/
def totalsMarkerPat : RE :=
  seqL [.wordB,
        .group 1 (altL [slit "total", slit "sub total", slit "amount chargeable",
                        slit "round off", slit "tax amount"]),
        .wordB]

/-- Does a row match the `parse_table` stop marker? -/
def isMarkerRow (row : Row) : Bool :=
  (reSearch true totalsMarkerPat (rowTextLower row)).isSome

/-- `re.match(r"^\d+$", s)`. -/
def pyIsPureNumber (s : List Char) : Bool :=
  (reMatchAt false (seqL [.startA, dPlus, .endA]) s 0).isSome

/-- Right-to-left scan for the last column yielding an amount. -/
def findAmountIdx (cols : List (List Token)) : Option (ℚ × ℕ) :=
  (List.range cols.length).reverse.findSome? fun idx =>
    (extract_amount_from_col (cols.getD idx [])).map fun a => (a, idx)

/-- `(\d{1,6})\s*(pcs|bag|kg|nos|pieces|units?)` (quantity search in
`parse_table`, case-insensitive; the unit group is not optional). -/
def qtyColPat : RE :=
  seqL [.group 1 (dRep 1 (some 6)), sStar,
        .group 2 (altL [slit "pcs", slit "bag", slit "kg", slit "nos",
                        slit "pieces", .seq (slit "unit") (.opt (.lit ['s']))])]

/-- `re.sub(r"(\d)([A-Za-z])", r"\1 \2", s)`: insert a space between a
digit and a following letter (both characters are consumed by a match,
so overlapping pairs are skipped, as in `re`). -/
def digitLetterSpace : List Char → List Char
  | [] => []
  | [c] => [c]
  | c :: d :: rest =>
    if isDigitCh c && isAlphaCh d then c :: ' ' :: d :: digitLetterSpace rest
    else c :: digitLetterSpace (d :: rest)

/-- `re.sub(r"^\d+\s+", "", s)` (strip a leading row number). -/
def stripLeadNumSp (s : List Char) : List Char :=
  reSub false (seqL [.startA, dPlus, sPlus]) s []

/-- The quantity string built by `parse_table` for one matching column:
`group(1) + (" " + group(2)).strip()` (so no space yet; the
digit-letter pass adds it back). -/
def qtyFromCol (c : List Token) : Option (List Char) :=
  (reSearch true qtyColPat (col_text c)).bind fun r =>
    (reCapGroup (col_text c) r.2.2 1).bind fun g1 =>
      (reCapGroup (col_text c) r.2.2 2).map fun g2 =>
        g1 ++ stripL (' ' :: g2)

/-- One amount-bearing row of `parse_table` turned into an item. -/
def tableItem (cols : List (List Token)) (pending : List Row)
    (amount : ℚ) (amount_idx : ℕ) : Item :=
  let unit_price :=
    match amount_idx with
    | 0 => none
    | i + 1 => extract_amount_from_col (cols.getD i [])
  let qty_candidates := cols.filterMap qtyFromCol
  let qty := (qty_candidates.head?).map fun q => digitLetterSpace (stripL q)
  let pendingParts := pending.filterMap fun prow =>
    let t := stripLeadNumSp (stripL (rowText prow))
    if t.isEmpty then none else some t
  let numeric_col_idx := cols.findIdx? fun c =>
    (extract_amount_from_col c).isSome ||
      (reSearch false (dRep 4 (some 8)) (col_text c)).isSome
  let last_desc := numeric_col_idx.getD cols.length
  let rowParts := ((cols.take last_desc).map col_text).filter fun t =>
    !t.isEmpty && !pyIsPureNumber t
  let description := stripL (joinSep [' '] (pendingParts ++ rowParts))
  let hsn := cols.findSome? fun c => reSearchGroup false hsnWordPat (col_text c) 1
  { description := if description.isEmpty then none else some description,
    hsn := hsn, quantity := qty, unitPrice := unit_price,
    taxableValue := some amount }

/-- The row loop of `parse_table`: stop at a totals marker; buffer
amount-free rows with usable text as pending description rows; emit an
item (flushing the buffer) for each amount-bearing row. -/
def tableLoop (bounds : List (ℚ × ℚ)) : List Row → List Row → List Item
  | _, [] => []
  | pending, row :: rest =>
    if isMarkerRow row then []
    else
      let cols := assign_cols row bounds
      match findAmountIdx cols with
      | none =>
        let row_text := stripL (rowText row)
        if !row_text.isEmpty && !pyIsPureNumber row_text then
          tableLoop bounds (pending ++ [row]) rest
        else tableLoop bounds pending rest
      | some (amount, amount_idx) =>
        tableItem cols pending amount amount_idx :: tableLoop bounds [] rest

/-- `parse_table(rows, header_idx, start_parse_idx)`: `rows[header_idx]`
is the one unguarded index of the pipeline, so the result is `none`
exactly when Python would raise `IndexError`. -/
def parse_table (rows : List Row) (header_idx start_parse_idx : ℕ) :
    Option (List Item) :=
  match rows.get? header_idx with
  | none => none
  | some header_row =>
    let bounds := compute_bounds header_row
    if is_transposed_table rows start_parse_idx
        (min (start_parse_idx + 20) rows.length) then
      some (parse_transposed_table rows start_parse_idx bounds)
    else
      some (tableLoop bounds [] (rows.drop start_parse_idx))

/-! ## Fallback line parser -/

/-- `\b(Sub\s*Total|Total|Round Off|Amount Chargeable|Tax Amount)\b`
(fallback stop marker, case-insensitive). -/
def fbMarkerPat : RE :=
  seqL [.wordB,
        .group 1 (altL [seqL [slit "Sub", sStar, slit "Total"], slit "Total",
                        slit "Round Off", slit "Amount Chargeable",
                        slit "Tax Amount"]),
        .wordB]

/-- `(\d{1,6})\s*(PCS|Bag|KG|Nos|Pcs|pcs)?\b` (fallback quantity,
case-insensitive, unit optional). -/
def fbQtyPat : RE :=
  seqL [.group 1 (dRep 1 (some 6)), sStar,
        .opt (.group 2 (altL [slit "PCS", slit "Bag", slit "KG", slit "Nos",
                              slit "Pcs", slit "pcs"])),
        .wordB]

/-- `([0-9]+\.[0-9]{2})`. -/
def fbAmtPat : RE := .group 1 (seqL [dPlus, .lit ['.'], dRep 2 (some 2)])

/-- `@?\s*([0-9]{1,2}(?:\.[0-9])?)\s*%` (GST percentage). -/
def fbGstPat : RE :=
  seqL [.opt (.lit ['@']), sStar,
        .group 1 (seqL [dRep 1 (some 2), .opt (seqL [.lit ['.'], dRep 1 (some 1)])]),
        sStar, .lit ['%']]

/-- `\s{2,}` (whitespace collapse). -/
def ws2Pat : RE := .rep isPySpaceCh 2 none false

/-- `parse_item_from_line(s)`: single-line item extraction; requires at
least one two-decimal amount and a quantity pattern. -/
def parse_item_from_line (s : List Char) : Option Item :=
  let s := s.map fun c => if c = '₹' || c = ',' then ' ' else c
  let qty_m := reSearch true fbQtyPat s
  let amounts := reFindAll false fbAmtPat s
  let hsn_m := reSearchGroup false hsnWordPat s 1
  match qty_m, amounts.getLast? with
  | some qm, some taxable =>
    let up := if 2 ≤ amounts.length then amounts.get? (amounts.length - 2) else none
    let desc := reSub false (.lit taxable) s []
    let desc := match up with
      | some u => reSub false (.lit u) desc []
      | none => desc
    let qspan := subSpan s qm.1 qm.2.1
    let desc := reSub false (.lit qspan) desc []
    let desc := stripL (reSub false ws2Pat desc [' '])
    let g1 := (reCapGroup s qm.2.2 1).getD []
    let g2 := reCapGroup s qm.2.2 2
    let gst := (reSearchGroup false fbGstPat s 1).bind parsePyFloat
    some { description := if desc.isEmpty then none else some desc,
           hsn := hsn_m,
           quantity := some (g1 ++ stripL (' ' :: g2.getD [])),
           unitPrice := up.bind normalize_amount,
           taxableValue := normalize_amount taxable,
           gstRatePct := gst }
  | _, _ => none

/-- The merge attempt of `parse_items_fallback`: try the current line
joined with the next line, then with the next two; returns the parsed
item and the number of extra lines merged. -/
def fbTryMerge (filtered : List (List Char)) (ln : List Char) (i : ℕ) :
    Option (Item × ℕ) :=
  match filtered.get? (i + 1) with
  | none => none
  | some l1 =>
    let merged1 := ln ++ ' ' :: l1
    match parse_item_from_line merged1 with
    | some it => some (it, 1)
    | none =>
      match filtered.get? (i + 2) with
      | none => none
      | some l2 =>
        (parse_item_from_line (merged1 ++ ' ' :: l2)).map fun it => (it, 2)

/-- The index loop of `parse_items_fallback` (`i` advances by 1, or by
`j` after a successful merge of `j` extra lines — so the last merged
line is scanned again, as in the source). -/
def fbLoop (filtered : List (List Char)) : ℕ → ℕ → List Item
  | 0, _ => []
  | fuel + 1, i =>
    match filtered.get? i with
    | none => []
    | some ln =>
      if (reSearch true fbMarkerPat ln).isSome then []
      else
        match parse_item_from_line ln with
        | some it => it :: fbLoop filtered fuel (i + 1)
        | none =>
          match fbTryMerge filtered ln i with
          | some (it, j) => it :: fbLoop filtered fuel (i + j)
          | none => fbLoop filtered fuel (i + 1)

/-- `parse_items_fallback(rows)`. -/
def parse_items_fallback (rows : List Row) : List Item :=
  let lines := (rows.filter fun r => !r.isEmpty).map fun r => stripL (rowText r)
  let filtered := lines.filter fun ln => 1 < ln.length
  fbLoop filtered (filtered.length + 1) 0

/-! ## Totals extraction (`extract_totals`) -/

/-- The totals dictionary of `extract_invoice_structured`
(`subTotal`, `cgst`, `sgst`, `roundOff`, `totalAmount`, `totalQty`,
`totalInWords`). -/
structure TotalsOut where
  subTotal : Option ℚ := none
  cgst : Option ℚ := none
  sgst : Option ℚ := none
  roundOff : Option ℚ := none
  totalAmount : Option ℚ := none
  totalQty : Option (List Char) := none
  totalInWords : Option (List Char) := none
deriving Repr, DecidableEq

/-- `[:\s]*`. -/
def colonSpStar : RE := .rep (fun c => c = ':' || isPySpaceCh c) 0 none false

/-- `[0-9\.,]+`. -/
def amtChPlus : RE := .rep (fun c => isDigitCh c || c = '.' || c = ',') 1 none false

/-- `Sub\s*Total\s*[:\s]*₹?\s*([0-9\.,]+)`. -/
def subTotalPat : RE :=
  seqL [slit "Sub", sStar, slit "Total", sStar, colonSpStar,
        .opt (.lit ['₹']), sStar, .group 1 amtChPlus]

/-- `CGST@?[\d\.]*%?\s*[:\s]*₹?\s*([0-9\.,]+)`. -/
def cgstPat : RE :=
  seqL [slit "CGST", .opt (.lit ['@']),
        .rep (fun c => isDigitCh c || c = '.') 0 none false,
        .opt (.lit ['%']), sStar, colonSpStar, .opt (.lit ['₹']), sStar,
        .group 1 amtChPlus]

/-- `SGST@?[\d\.]*%?\s*[:\s]*₹?\s*([0-9\.,]+)`. -/
def sgstPat : RE :=
  seqL [slit "SGST", .opt (.lit ['@']),
        .rep (fun c => isDigitCh c || c = '.') 0 none false,
        .opt (.lit ['%']), sStar, colonSpStar, .opt (.lit ['₹']), sStar,
        .group 1 amtChPlus]

/-- `Round\s*Off\s*[:\s\-]*₹?\s*([0-9\.]+)`. -/
def roundOffPat : RE :=
  seqL [slit "Round", sStar, slit "Off", sStar,
        .rep (fun c => c = ':' || c = '-' || isPySpaceCh c) 0 none false,
        .opt (.lit ['₹']), sStar,
        .group 1 (.rep (fun c => isDigitCh c || c = '.') 1 none false)]

/-- The case-insensitive `Sub\s` word checked by the negative lookbehind
`(?<!Sub\s)`. -/
def nbSubW : List (Char → Bool) :=
  [fun c => c.toLower == 's', fun c => c.toLower == 'u',
   fun c => c.toLower == 'b', isPySpaceCh]

/-- `(?<!Sub\s)Total\s*[:\s]*₹?\s*([0-9\.,]+)`. -/
def grandTotalPat : RE :=
  seqL [.nbehind nbSubW, slit "Total", sStar, colonSpStar,
        .opt (.lit ['₹']), sStar, .group 1 amtChPlus]

/-- `Total\s+([0-9]+\s*(?:PCS|Bag|KG|Nos)?)`. -/
def totalQtyPat : RE :=
  seqL [slit "Total", sPlus,
        .group 1 (seqL [dPlus, sStar,
          .opt (altL [slit "PCS", slit "Bag", slit "KG", slit "Nos"])])]

/-- `(Amount Chargeable \(in words\)|Invoice Amount In Words)(?:[:\s\n-]*)\s*(.+?)(?:\n|$)`
with DOTALL: the `.` class also matches newlines and the repetition is lazy. -/
def inWordsPat : RE :=
  seqL [.group 1 (.alt (slit "Amount Chargeable (in words)")
                       (slit "Invoice Amount In Words")),
        .rep (fun c => c = ':' || c = '-' || isPySpaceCh c) 0 none false,
        sStar, .group 2 (.rep (fun _ => true) 1 none true),
        .alt (.lit ['\n']) .endA]

/-- `extract_totals(rows)`: regex-anchored search over the joined text of
the last 14 rows. -/
def extract_totals (rows : List Row) : TotalsOut :=
  let bottom_lines := (rows.drop (rows.length - 14)).map rowText
  let bt := joinSep ['\n'] bottom_lines
  { subTotal := (reSearchGroup true subTotalPat bt 1).bind normalize_amount
    cgst := (reSearchGroup true cgstPat bt 1).bind normalize_amount
    sgst := (reSearchGroup true sgstPat bt 1).bind normalize_amount
    roundOff :=
      match reSearchGroup true roundOffPat bt 1 with
      | some g => normalize_amount g
      | none => some 0
    totalAmount := (reSearchGroup true grandTotalPat bt 1).bind normalize_amount
    totalQty := reSearchGroup true totalQtyPat bt 1
    totalInWords := (reSearchGroup true inWordsPat bt 2).map stripL }

/-! ## Post-processing (`postprocess_extracted` and helpers) -/

/-- First alternation of `clean_description`:
`\b(HSN/SAC|Invoice No\.?|Tax Invoice|This is a Computer Generated Invoice|continued to page number|E\.&\s*O\.E|GSTIN|Amount Chargeable)\b.*`. -/
def cdNoisePat : RE :=
  seqL [.wordB,
        .group 1 (altL [slit "HSN/SAC",
                        seqL [slit "Invoice No", .opt (.lit ['.'])],
                        slit "Tax Invoice",
                        slit "This is a Computer Generated Invoice",
                        slit "continued to page number",
                        seqL [slit "E.&", sStar, slit "O.E"],
                        slit "GSTIN", slit "Amount Chargeable"]),
        .wordB, dotStar]

/-- `Invoice No\.?\s*[:\-]?\s*\w+`. -/
def cdInvNoPat : RE :=
  seqL [slit "Invoice No", .opt (.lit ['.']), sStar,
        .opt (.cls fun c => c = ':' || c = '-'), sStar,
        .rep isWordCh 1 none false]

/-- `[\n\r]+| {2,}` (the part split of `clean_description`). -/
def cdSplitPat : RE :=
  .alt (.rep (fun c => c = '\n' || c = '\x0d') 1 none false)
       (.rep (fun c => c = ' ') 2 none false)

/-- `clean_description(s)`: strip header/footer noise, collapse
whitespace, drop empty parts. -/
def clean_description (s : List Char) : Option (List Char) :=
  if s.isEmpty then none
  else
    let s := reSub true cdNoisePat s []
    let s := reSub true cdInvNoPat s []
    let s := stripL (reSub false ws2Pat s [' '])
    let parts := ((reSplit false cdSplitPat s).map stripL).filter fun p => !p.isEmpty
    if parts.isEmpty then none else some (joinSep [' '] parts)

/-- `(\d+)` (first digit run). -/
def digitRunPat : RE := .group 1 dPlus

/-- The integer quantity `try_fix_unit_tax` and
`recompute_totals_from_items` read out of a quantity string. -/
def qtyInt (q : Option (List Char)) : ℕ :=
  match q with
  | some s =>
    if s.isEmpty then 0
    else
      match reSearchGroup false digitRunPat s 1 with
      | some d => natOfDigits d
      | none => 0
  | none => 0

/-- `try_fix_unit_tax(item)`: fill a missing unit price from
taxable/quantity; keep consistent rows; swap unit price and taxable
value when the unit price is more than twice the taxable value. -/
def try_fix_unit_tax (it : Item) : Item :=
  let up := normalize_amount_num it.unitPrice
  let tx := normalize_amount_num it.taxableValue
  let qty := qtyInt it.quantity
  if !pyTruthyQ up && pyTruthyQ tx && 0 < qty then
    { it with unitPrice := some (round2 (tx.getD 0 / (qty : ℚ))) }
  else if pyTruthyQ up && pyTruthyQ tx && 0 < qty &&
      |up.getD 0 * (qty : ℚ) - tx.getD 0| / (tx.getD 0 + 1 / 1000000) < 1 / 20 then
    it
  else if pyTruthyQ up && pyTruthyQ tx && 0 < qty &&
      tx.getD 0 * 2 < up.getD 0 then
    { it with unitPrice := tx, taxableValue := up }
  else it

/-- The HSN cleanup of `postprocess_extracted`: a truthy HSN string is
replaced by its first 4–8 digit run (or dropped). -/
def hsnClean (it : Item) : Item :=
  match it.hsn with
  | some h =>
    if h.isEmpty then it
    else { it with hsn := reSearchGroup false hsnLoosePat h 1 }
  | none => it

/-- The per-item pipeline of `postprocess_extracted`. -/
def postprocItem (it : Item) : Item :=
  hsnClean (try_fix_unit_tax
    { it with description := clean_description (it.description.getD []) })

/-- The retention filter of `postprocess_extracted`
(`if it.get('taxableValue') or it.get('unitPrice') or it.get('hsn')`). -/
def keepItem (it : Item) : Bool :=
  pyTruthyQ it.taxableValue || pyTruthyQ it.unitPrice || pyTruthyStrL it.hsn

/-- The invoice-header dictionary of `extract_invoice_structured`. -/
structure InvFields where
  invoiceNumber : Option (List Char) := none
  invoiceDate : Option (List Char) := none
  placeOfSupply : Option (List Char) := none
  referenceNo : Option (List Char) := none
  referenceDate : Option (List Char) := none
  irn : Option (List Char) := none
  acknowledgement : Option (List Char) := none
deriving Repr, DecidableEq

/-- The seller dictionary (name and GSTIN when found). -/
structure SellerOut where
  name : Option (List Char) := none
  gstin : Option (List Char) := none
deriving Repr, DecidableEq

/-- The buyer dictionary. -/
structure BuyerOut where
  name : Option (List Char) := none
  gstin : Option (List Char) := none
  contact : Option (List Char) := none
deriving Repr, DecidableEq

/-- The structured result of `extract_invoice_structured`. -/
structure ExtractResult where
  invoice : InvFields
  seller : SellerOut
  buyer : BuyerOut
  items : List Item
  totals : TotalsOut
  docType : List Char
  isComputerGenerated : Bool
deriving Repr, DecidableEq

/-- `recompute_totals_from_items(result)`: replace an absent or
implausible (`< 100`) total amount by the summed taxable values, and an
absent total quantity by the summed quantities. -/
def recompute_totals_from_items (res : ExtractResult) : ExtractResult :=
  let total_taxable :=
    (res.items.map fun it => (normalize_amount_num it.taxableValue).getD 0).sum
  let total_qty := (res.items.map fun it => qtyInt it.quantity).sum
  let totals := res.totals
  let totals :=
    if 0 < total_taxable &&
        (!pyTruthyQ totals.totalAmount || totals.totalAmount.getD 0 < 100) then
      { totals with totalAmount := some (round2 total_taxable) }
    else totals
  let totals :=
    if 0 < total_qty && !pyTruthyStrL totals.totalQty then
      { totals with totalQty := some ((toString total_qty).data ++ " PCS".data) }
    else totals
  { res with totals := totals }

/-- The values `['', 'Dated', 'Date', 'No', 'Number', None]` rejected for
date/reference header fields. -/
def badHeaderVals : List (List Char) :=
  ["", "Dated", "Date", "No", "Number"].map String.data

/-- `postprocess_extracted(result)`. -/
def postprocess_extracted (res : ExtractResult) : ExtractResult :=
  let inv := res.invoice
  let inv :=
    if pyTruthyStrL inv.invoiceNumber &&
        !((inv.invoiceNumber.getD []).any isDigitCh) then
      { inv with invoiceNumber := none }
    else inv
  let dropBad : Option (List Char) → Option (List Char) := fun v =>
    match v with
    | none => none
    | some s => if badHeaderVals.contains s then none else some s
  let inv := { inv with invoiceDate := dropBad inv.invoiceDate,
                        referenceNo := dropBad inv.referenceNo,
                        referenceDate := dropBad inv.referenceDate }
  let seller :=
    match res.seller.name with
    | some n =>
      if n.isEmpty then res.seller
      else { res.seller with name := some (stripL (reSub false ws2Pat n [' '])) }
    | none => res.seller
  let buyer :=
    match res.buyer.name with
    | some n =>
      if n.isEmpty then res.buyer
      else { res.buyer with name := some (stripL (reSub false ws2Pat n [' '])) }
    | none => res.buyer
  let clean_items := (res.items.map postprocItem).filter keepItem
  let res := { res with invoice := inv, seller := seller, buyer := buyer,
                        items := clean_items }
  let res := recompute_totals_from_items res
  if pyTruthyQ res.totals.totalAmount && res.totals.totalAmount.getD 0 < 50 then
    recompute_totals_from_items res
  else res

/-! ## Top-level extraction -/

/-- The type of the header-field block of `extract_invoice_structured`
(source lines 794–875): a pure function of the `top` and `mid` text
blocks, consisting only of `re.search` calls, which cannot raise.  It is
taken as a parameter for proof modularity; every theorem about
`extract_invoice_structured` quantifies over it, so the theorems hold in
particular for `header_fields_block` below, the concrete embedding of
the Python block (see `extract_invoice_structured_full`). -/
abbrev HeaderFieldsFn := List Char → List Char → SellerOut × BuyerOut × InvFields

/-- `extract_invoice_structured(ocr_json)` for a given header-field
block: tokenize, group rows, find the table anchor, parse the table
(falling back to the line parser when no anchor or no items), extract
totals, assemble and post-process.  The result is `none` exactly when
Python would raise (the unguarded `rows[header_idx]` in `parse_table`). -/
def extract_invoice_structured (hdrF : HeaderFieldsFn)
    (fullText : List RawTok) : Option ExtractResult :=
  let tokens := tokens_from_fulltext fullText
  let rows := group_rows tokens 16
  let itemsO :=
    match find_header_soft rows with
    | some hs => parse_table rows hs.1 hs.2
    | none => some []
  match itemsO with
  | none => none
  | some items0 =>
    let items := if items0.isEmpty then parse_items_fallback rows else items0
    let page_0_rows := rows.filter fun r => r.all fun t => t.page == 0
    let page_0_rows := if page_0_rows.isEmpty then rows else page_0_rows
    let top := joinSep ['\n'] ((page_0_rows.take 5).map rowText)
    let mid := joinSep ['\n']
      (((page_0_rows.drop 5).take (min 25 page_0_rows.length - 5)).map rowText)
    let bottom := joinSep ['\n'] ((rows.drop (rows.length - 14)).map rowText)
    let hb := hdrF top mid
    let totals := extract_totals rows
    let tmb := top ++ mid ++ bottom
    let out : ExtractResult :=
      { invoice := hb.2.2, seller := hb.1, buyer := hb.2.1, items := items,
        totals := totals,
        docType := if containsSub tmb "Tax Invoice".data
          then "Tax Invoice".data else "Invoice".data,
        isComputerGenerated := containsSub tmb "Computer Generated".data ||
          containsSub tmb "This is a Computer Generated Invoice".data }
    some (postprocess_extracted out)

/-! ## Chain predicates for the column-coverage analysis -/

/-- A nonempty bound list forms a covering chain: every interval is
nonempty, each next interval starts no later than the previous one ends,
and right endpoints are nondecreasing. -/
def boundsChain : List (ℚ × ℚ) → Prop
  | [] => True
  | [b] => b.1 ≤ b.2
  | a :: b :: rest => a.1 ≤ a.2 ∧ b.1 ≤ a.2 ∧ a.2 ≤ b.2 ∧ boundsChain (b :: rest)

/-- The right endpoint of the last bound of `hd :: rest`. -/
def lastRight : ℚ × ℚ → List (ℚ × ℚ) → ℚ
  | b, [] => b.2
  | _, c :: rest => lastRight c rest

/-! ## Concrete instances used by counterexamples and witnesses -/

/-- A minimal concrete token at a given x position. -/
def mkTok (s : String) (x : ℚ) : Token :=
  { text := s.data, cx := x, cy := 0, left := x, conf := 1, idx := 0 }

/-- 30 filler rows followed (at index 30) by a 3-token row scoring 3
header keywords (`rate`, `amount`, `taxable`). -/
def c5rows : List Row :=
  (List.replicate 30 [mkTok "foo" 0]) ++
    [[mkTok "rate" 0, mkTok "amount" 100, mkTok "taxable" 200]]

/-- The spec's scenario header row (5 tokens, keyword score 5). -/
def specHdrRow : Row :=
  [mkTok "Description of Goods" 0, mkTok "HSN/SAC" 100, mkTok "Quantity" 200,
   mkTok "Rate" 300, mkTok "Amount" 400]

/-- A header row, an `Invoice Amount In Words` row, then an item row. -/
def c8rows : List Row :=
  [[mkTok "Description" 0, mkTok "Qty" 100, mkTok "Rate" 200, mkTok "Amount" 300],
   [mkTok "Invoice" 0, mkTok "Amount" 100, mkTok "In" 200, mkTok "Words" 300],
   [mkTok "Widget" 0, mkTok "5 pcs" 100, mkTok "10.00" 200, mkTok "50.00" 300]]

/-- The item the table parser produces from the last row of `c8rows`
(the buffered `Invoice Amount In Words` row ends up in its description). -/
def c8item : Item :=
  { description := some "Invoice Amount In Words Widget 5 pcs".data,
    hsn := none, quantity := some "5 pcs".data,
    unitPrice := some 10, taxableValue := some 50 }

/-- A header row, an item row, a `Total` marker row, and a row after the
marker, for the amended stop-condition witness. -/
def c8wRows : List Row :=
  [[mkTok "Description" 0, mkTok "Qty" 100, mkTok "Rate" 200, mkTok "Amount" 300],
   [mkTok "Widget" 0, mkTok "5 pcs" 100, mkTok "10.00" 200, mkTok "50.00" 300],
   [mkTok "Total" 0],
   [mkTok "99.00" 300]]

/-- A header-field block that extracts nothing (used to instantiate the
abstracted block at concrete inputs). -/
def hdr0 : HeaderFieldsFn := fun _ _ => ({}, {}, {})

/-- A one-token OCR input whose only line parses as an item in the
fallback path. -/
def w2full : List RawTok :=
  [{ text := some "ITEM 2 pcs 10.00", bbox := some [(0,0),(10,0),(10,10),(0,10)],
     conf := some 1 }]

/-- The result the pipeline produces on `w2full`. -/
def w2res : ExtractResult :=
  (extract_invoice_structured hdr0 w2full).getD ⟨{}, {}, {}, [], {}, [], false⟩

/-- The single retained item of `w2res`. -/
def w2item : Item := w2res.items.getD 0 default

/-! ## The header-field block (source lines 794–876), embedded concretely

`extract_invoice_structured` above is parameterized by the block for
proof modularity; `header_fields_block` below is the concrete embedding
of the source's seller/buyer/invoice regex block, and
`extract_invoice_structured_full` ties them together.  Theorems that
quantify over the parameter hold in particular for this block. -/

/-- Group-1 strings of all non-overlapping matches (`re.findall` on a
pattern with one capture group). -/
def goSpansG (ci : Bool) (re : RE) (full : List Char) :
    ℕ → ℕ → List (List Char)
  | 0, _ => []
  | fuel + 1, pos =>
    match (List.range (full.length + 1 - pos)).findSome? (fun d =>
      let i := pos + d
      (reMatchAt ci re full i).map fun r => (i, r.1, r.2)) with
    | none => []
    | some (i, j, caps) =>
      (reCapGroup full caps 1).getD [] ::
        goSpansG ci re full fuel (if i < j then j else i + 1)

/-- `re.findall` returning the single capture group's strings. -/
def reFindAllG1 (ci : Bool) (re : RE) (full : List Char) : List (List Char) :=
  goSpansG ci re full (full.length + 2) 0

/-- Python `s.split(needle)[0]`: the prefix before the first occurrence
of `needle` (the whole string when absent). -/
def takeBeforeSub (s needle : List Char) : List Char :=
  match (List.range (s.length + 1)).find? (occursAt needle s) with
  | some i => s.take i
  | none => s

/-- Python `s.split('\n')`. -/
def splitNl : List Char → List (List Char)
  | [] => [[]]
  | c :: rest =>
    let r := splitNl rest
    if c = '\n' then [] :: r
    else
      match r with
      | [] => [[c]]
      | h :: t => (c :: h) :: t

/-- `[A-Z0-9]` under `re.IGNORECASE` (letters of either case or digits). -/
def alnumCI (c : Char) : Bool := isAlphaCh c || isDigitCh c

/-- `[^A-Z0-9]` under `re.IGNORECASE`. -/
def notAlnumCI (c : Char) : Bool := !(isAlphaCh c || isDigitCh c)

/-- `(?:M\/s|For\s*:?)\s*([A-Za-z0-9 &\.\-]{3,50})` (seller name). -/
def msForPat : RE :=
  seqL [.alt (slit "M/s") (seqL [slit "For", sStar, .opt (.lit [':'])]),
        sStar,
        .group 1 (.rep (fun c => isAlphaCh c || isDigitCh c || c = ' ' ||
          c = '&' || c = '.' || c = '-') 3 (some 50) false)]

/-- `GSTIN[^A-Z0-9]*([A-Z0-9]{15})`. -/
def gstinTopPat : RE :=
  seqL [slit "GSTIN", .rep notAlnumCI 0 none false,
        .group 1 (.rep alnumCI 15 (some 15) false)]

/-- `GSTIN(?:\s*Number)?[^A-Z0-9]*([A-Z0-9]{15})`. -/
def gstinBlockPat : RE :=
  seqL [slit "GSTIN", .opt (.seq sStar (slit "Number")),
        .rep notAlnumCI 0 none false,
        .group 1 (.rep alnumCI 15 (some 15) false)]

/-- `(?:Bill\s*To|Buyer\s*\(Bill\s*to\))[\s:\-]*(.{10,500}?)(?:Invoice\s*No|HSN|Description\s*of\s*Goods|#\s*Item)`
with DOTALL (the lazy dot repetition also matches newlines). -/
def buyerBlockPat : RE :=
  seqL [.alt (seqL [slit "Bill", sStar, slit "To"])
             (seqL [slit "Buyer", sStar, slit "(Bill", sStar, slit "to)"]),
        .rep (fun c => c = ':' || c = '-' || isPySpaceCh c) 0 none false,
        .group 1 (.rep (fun _ => true) 10 (some 500) true),
        altL [seqL [slit "Invoice", sStar, slit "No"], slit "HSN",
              seqL [slit "Description", sStar, slit "of", sStar, slit "Goods"],
              seqL [.lit ['#'], sStar, slit "Item"]]]

/-- `(\+?\d[\d\-\s]{8,})` (buyer contact). -/
def contactPat : RE :=
  .group 1 (seqL [.opt (.lit ['+']), .cls isDigitCh,
    .rep (fun c => isDigitCh c || c = '-' || isPySpaceCh c) 8 none false])

/-- `(?:Invoice\s*(?:No\.?|Number|#)\s*[:\-\s]*)?([A-Z0-9]{2,}\d{1,}[A-Z0-9\-\/]*)`
(invoice number; matched case-insensitively). -/
def invNumPat : RE :=
  seqL [.opt (seqL [slit "Invoice", sStar,
          altL [.seq (slit "No") (.opt (.lit ['.'])), slit "Number", .lit ['#']],
          sStar,
          .rep (fun c => c = ':' || c = '-' || isPySpaceCh c) 0 none false]),
        .group 1 (seqL [.rep alnumCI 2 none false, dPlus,
          .rep (fun c => isAlphaCh c || isDigitCh c || c = '-' || c = '/')
            0 none false])]

/-- The month-name alternation of the date pattern. -/
def monthAlt : RE :=
  altL [slit "Jan", slit "Feb", slit "Mar", slit "Apr", slit "May",
        slit "Jun", slit "Jul", slit "Aug", slit "Sep", slit "Oct",
        slit "Nov", slit "Dec"]

/-- The `date_pat` alternation:
`[0-9]{1,2}[\/\-\s][0-9]{1,2}[\/\-\s][0-9]{2,4}`,
`[0-9]{1,2}[- ](?:Jan|…|Dec)[a-z]*[- ]\d{2,4}`, or
`(?:Jan|…|Dec)[a-z]*\s+\d{1,2},?\s+\d{4}` (all under `re.IGNORECASE`,
so `[a-z]` admits either letter case). -/
def dateCorePat : RE :=
  altL [seqL [dRep 1 (some 2), .cls (fun c => c = '/' || c = '-' || isPySpaceCh c),
              dRep 1 (some 2), .cls (fun c => c = '/' || c = '-' || isPySpaceCh c),
              dRep 2 (some 4)],
        seqL [dRep 1 (some 2), .cls (fun c => c = '-' || c = ' '), monthAlt,
              .rep isAlphaCh 0 none false, .cls (fun c => c = '-' || c = ' '),
              dRep 2 (some 4)],
        seqL [monthAlt, .rep isAlphaCh 0 none false, sPlus, dRep 1 (some 2),
              .opt (.lit [',']), sPlus, dRep 4 (some 4)]]

/-- `(?:Dated|Date|Dt\.?)\s*[:\-]?\s*` followed by the date group. -/
def dateFullPat : RE :=
  seqL [altL [slit "Dated", slit "Date", .seq (slit "Dt") (.opt (.lit ['.']))],
        sStar, .opt (.cls (fun c => c = ':' || c = '-')), sStar,
        .group 1 dateCorePat]

/-- `Place\s+of\s+Supply\s*[:\.\-]?\s*([^\n\r]+)`. -/
def posPat : RE :=
  seqL [slit "Place", sPlus, slit "of", sPlus, slit "Supply", sStar,
        .opt (.cls (fun c => c = ':' || c = '.' || c = '-')), sStar,
        .group 1 (.rep (fun c => !(c = '\n' || c = '\x0d')) 1 none false)]

/-- `Reference\s*No\.?\s*[:\.\-]?\s*([A-Za-z0-9\/\-]+)`. -/
def refPat : RE :=
  seqL [slit "Reference", sStar, slit "No", .opt (.lit ['.']), sStar,
        .opt (.cls (fun c => c = ':' || c = '.' || c = '-')), sStar,
        .group 1 (.rep (fun c => isAlphaCh c || isDigitCh c || c = '/' || c = '-')
          1 none false)]

/-- The words rejected as invoice-number candidates. -/
def badInvoiceWords : List (List Char) :=
  ["dated", "date", "no", "number", "delivery"].map String.data

/-- The seller/buyer/invoice header-field extraction block of
`extract_invoice_structured` (source lines 794–876), as a function of
the `top` and `mid` text blocks. -/
def header_fields_block : HeaderFieldsFn := fun top mid =>
  let seller : SellerOut :=
    { name :=
        match reSearchGroup true msForPat top 1 with
        | some g =>
          let name := stripL g
          some (stripL (takeBeforeSub (takeBeforeSub
            (takeBeforeSub name ['\n']) "Invoice".data) "Dated".data))
        | none => none
      gstin := reSearchGroup true gstinTopPat top 1 }
  let buyer : BuyerOut :=
    match reSearchGroup true buyerBlockPat mid 1 with
    | some braw =>
      let block := stripL braw
      let lines := ((splitNl block).map stripL).filter (fun l => !l.isEmpty)
      { name := lines.head?
        gstin := reSearchGroup true gstinBlockPat block 1
        contact := (reSearchGroup false contactPat block 1).map stripL }
    | none =>
      { gstin := (reFindAllG1 true gstinTopPat (top ++ mid)).get? 1 }
  let inv : InvFields :=
    { invoiceNumber :=
        match reSearchGroup true invNumPat (top ++ mid) 1 with
        | some g =>
          let candidate := stripL g
          if candidate.any isDigitCh && 2 < candidate.length then
            if badInvoiceWords.contains (lowerL candidate) then none
            else some candidate
          else none
        | none => none
      invoiceDate := (reSearchGroup true dateFullPat (top ++ mid) 1).map stripL
      placeOfSupply := (reSearchGroup true posPat top 1).map stripL
      referenceNo := reSearchGroup true refPat (top ++ mid) 1 }
  (seller, buyer, inv)

/-- The fully concrete `extract_invoice_structured(ocr_json)`. -/
def extract_invoice_structured_full (fullText : List RawTok) :
    Option ExtractResult :=
  extract_invoice_structured header_fields_block fullText

/-! # Theorems -/

/-- C6: for every line item with quantity value `q`, unit price `p` and
GST rate `g`, the computed totals written back by
`recompute_and_summarize` satisfy `net = round2 (q*p)`,
`tax = round2 (net*g)` and `gross = round2 (net+tax)`. -/
theorem c6_per_line_computed_totals (rows : List LineRow) (i : ℕ)
    (r : LineRow) (q p g : ℚ) (hr : rows.get? i = some r)
    (hq : r.qty = some q) (hp : r.unitPrice = some p) (hg : r.gstRate = some g) :
    ∃ r', ((recompute_and_summarize rows).1).get? i = some r' ∧
      r'.computedNet = round2 (q * p) ∧
      r'.computedTax = round2 (r'.computedNet * g) ∧
      r'.computedGross = round2 (r'.computedNet + r'.computedTax) := by
  unfold recompute_and_summarize
  dsimp only
  rw [List.get?_map, hr, Option.map_some']
  refine ⟨_, rfl, ?_, ?_, ?_⟩ <;>
    simp only [hq, hp, hg, Option.getD_some, compute_line_totals]

/-- C6 witness: a concrete line row. -/
theorem c6_witness :
    ∃ r', ((recompute_and_summarize [⟨some 2, some 3, some (1/10), 0, 0, 0⟩]).1).get? 0
        = some r' ∧
      r'.computedNet = round2 (2 * 3) ∧
      r'.computedTax = round2 (r'.computedNet * (1/10)) ∧
      r'.computedGross = round2 (r'.computedNet + r'.computedTax) :=
  c6_per_line_computed_totals [⟨some 2, some 3, some (1/10), 0, 0, 0⟩] 0
    ⟨some 2, some 3, some (1/10), 0, 0, 0⟩ 2 3 (1/10) rfl rfl rfl rfl

/-- C10: a token whose confidence metadata is present but zero (under
either key, `conf` or `confidence`) — or absent — is assigned confidence
1.0 by the tokenizer's `token_conf`, indistinguishably from a token with
no confidence at all. -/
theorem c10_zero_confidence_coerced (b : RawTok)
    (hc : b.conf = none ∨ b.conf = some 0)
    (hcc : b.confidence = none ∨ b.confidence = some 0) :
    token_conf b = 1 := by
  unfold token_conf pyOrQ
  rcases hc with h | h <;> rcases hcc with h' | h' <;> rw [h, h'] <;> simp

/-- C10 witness: conf and confidence both present and zero. -/
theorem c10_witness :
    token_conf { conf := some 0, confidence := some 0 } = 1 :=
  c10_zero_confidence_coerced { conf := some 0, confidence := some 0 }
    (Or.inr rfl) (Or.inr rfl)

/-- C3 (code bug): with `tax = 10` and the printed place of supply
`"10-Bihar"` (an intra-state supply — the app's own example document has
seller and buyer both in Bihar), `split_tax_breakdown` produces the
IGST split `igst = 10, cgst = sgst = 0`, not the claimed intra-state
split `cgst = sgst = 5, igst = 0`: the code branches only on the
presence of a place of supply. -/
theorem c3_igst_despite_intrastate :
    split_tax_breakdown ⟨0, 10, 0, 0, 0, 0⟩ (some "10-Bihar") =
      ⟨0, 10, 0, 0, 0, 10⟩ := by
  with_unfolding_all decide

/-- C1 counterexample: with computed gross 0, extracted gross 1.004 and
the default tolerance 1, the code reconciles (it compares the *rounded*
delta), although `|1.004 - 0| ≤ 1` is false as the claim would require. -/
theorem c1_counterexample :
    (reconcile_totals ⟨0, 0, 0, 0, 0, 0⟩ { gross := some (251/250) } 1).1 = true ∧
    ¬(|(251/250 : ℚ) - 0| ≤ 1) := by
  constructor
  · with_unfolding_all decide
  · rw [sub_zero, abs_of_pos (by norm_num)]
    norm_num

/-- C1 (amended): for an extracted-totals record carrying a gross value,
`reconciled = true` iff the absolute value of the *rounded to 2 decimals*
difference `round2 (extractedGross - computedGross)` is at most the
tolerance, and that rounded signed difference is returned as
`roundOffDelta`. -/
theorem c1_amended_reconcile (computed : Totals) (extracted : ExTotals)
    (tol eg : ℚ) (hg : extracted.gross = some eg) :
    ((reconcile_totals computed extracted tol).1 = true ↔
      |round2 (eg - computed.gross)| ≤ tol) ∧
    (reconcile_totals computed extracted tol).2 = round2 (eg - computed.gross) := by
  have hne : extracted.isEmpty = false := by
    unfold ExTotals.isEmpty
    rw [hg]
    simp
  unfold reconcile_totals
  rw [hne]
  simp only [Bool.false_eq_true, if_false, hg, Option.getD_some]
  constructor
  · split
    · rename_i hlt
      constructor
      · intro hfalse
        exact absurd hfalse (by simp)
      · intro hle
        exact absurd hle (not_le.mpr hlt)
    · rename_i hnlt
      simp [le_of_not_lt hnlt]
  · trivial

/-- C1 witness for the amended claim: computed gross 100, extracted gross
100.75, tolerance 1. -/
theorem c1_amended_witness :
    ((reconcile_totals ⟨0, 0, 100, 0, 0, 0⟩ { gross := some (403/4) } 1).1 = true ↔
      |round2 ((403/4 : ℚ) - 100)| ≤ 1) ∧
    (reconcile_totals ⟨0, 0, 100, 0, 0, 0⟩ { gross := some (403/4) } 1).2 =
      round2 ((403/4 : ℚ) - 100) :=
  c1_amended_reconcile ⟨0, 0, 100, 0, 0, 0⟩ { gross := some (403/4) } 1 (403/4) rfl

/-- Helper: with a single bound, every center is assigned to column 0. -/
theorem assignIdx_singleton (b : ℚ × ℚ) (cx : ℚ) : assignIdx [b] cx = 0 := by
  unfold assignIdx
  cases hfi : List.findIdx? (fun c => decide (c.1 ≤ cx) && decide (cx ≤ c.2)) [b] with
  | some i =>
    rw [List.findIdx?_cons] at hfi
    by_cases hp : (decide (b.1 ≤ cx) && decide (cx ≤ b.2)) = true
    · rw [if_pos hp] at hfi
      exact (Option.some.inj hfi).symm
    · rw [if_neg hp] at hfi
      simp [List.findIdx?] at hfi
  | none =>
    simp only [List.map_cons, List.map_nil, List.foldl_nil]
    simp [List.findIdx, List.findIdx.go]

/-- C7: an anchor row with fewer than 3 tokens yields the single
all-inclusive fallback bound, and `assign_cols` then puts every token of
any row into that one column. -/
theorem c7_degenerate_anchor_single_column (hr : Row) (h : hr.length < 3) :
    compute_bounds hr = [(-1000000, 1000000)] ∧
    ∀ row : Row, assign_cols row (compute_bounds hr) = [row] := by
  have hb : compute_bounds hr = [(-1000000, 1000000)] := by
    unfold compute_bounds compute_bounds_xs
    rw [if_pos (by simpa using h)]
  refine ⟨hb, fun row => ?_⟩
  rw [hb]
  unfold assign_cols
  simp only [List.length_cons, List.length_nil, assignIdx_singleton]
  show [row.filter fun _ => 0 == 0] = [row]
  simp

/-- C7 witness: a 2-token anchor row and a concrete subsequent row. -/
theorem c7_witness :
    compute_bounds [mkTok "a" 0, mkTok "b" 100] = [(-1000000, 1000000)] ∧
    ∀ row : Row, assign_cols row (compute_bounds [mkTok "a" 0, mkTok "b" 100]) = [row] :=
  c7_degenerate_anchor_single_column [mkTok "a" 0, mkTok "b" 100] (by decide)

/-- C5 counterexample: a row satisfying strategy 1's condition (keyword
score ≥ 2 and ≥ 3 tokens) at index 30 is not selected — no strategy
fires at all, because strategy 1 only scans the first 30 rows. -/
theorem c5_counterexample :
    2 ≤ headerScore (c5rows.getD 30 []) ∧ 3 ≤ (c5rows.getD 30 []).length ∧
    find_header_soft c5rows = none := by
  refine ⟨by with_unfolding_all decide, by with_unfolding_all decide, ?_⟩
  with_unfolding_all decide

/-- Helper: `findSome?` over `range' s n` returns the value of the first
index where `f` is `some`. -/
theorem findSome?_range'_first {β : Type} (f : ℕ → Option β) (b : β) :
    ∀ (n s i : ℕ), s ≤ i → i < s + n → f i = some b →
      (∀ j, s ≤ j → j < i → f j = none) →
      (List.range' s n).findSome? f = some b := by
  intro n
  induction n with
  | zero => intro s i h1 h2; omega
  | succ n ih =>
    intro s i h1 h2 hf hn
    rw [List.range'_succ, List.findSome?_cons]
    by_cases hsi : s = i
    · subst hsi
      rw [hf]
    · have hz : f s = none := hn s le_rfl (by omega)
      rw [hz]
      exact ih (s + 1) i (by omega) (by omega) hf fun j hj1 hj2 => hn j (by omega) hj2

/-- Helper: the same for `range n`. -/
theorem findSome?_range_first {β : Type} (f : ℕ → Option β) (b : β)
    (n i : ℕ) (h2 : i < n) (hf : f i = some b)
    (hn : ∀ j, j < i → f j = none) :
    (List.range n).findSome? f = some b := by
  rw [List.range_eq_range']
  exact findSome?_range'_first f b n 0 i (Nat.zero_le i) (by omega) hf
    fun j _ hj => hn j hj

/-- C5 (amended): if among the *first 30 rows* some row's concatenated
lowercase text contains at least 2 header keywords and that row has at
least 3 tokens, then the first such row is selected as the anchor and
parsing resumes on the next row. -/
theorem c5_amended_strategy1 (rows : List Row) (i : ℕ) (row : Row)
    (h30 : i < 30) (hrow : rows.get? i = some row)
    (hcond : 2 ≤ headerScore row ∧ 3 ≤ row.length)
    (hfirst : ∀ j row', j < i → rows.get? j = some row' →
      ¬(2 ≤ headerScore row' ∧ 3 ≤ row'.length)) :
    find_header_soft rows = some (i, i + 1) := by
  have hlt : i < rows.length := by
    by_contra hge
    rw [List.get?_eq_none.mpr (by omega)] at hrow
    exact Option.noConfusion hrow
  have hs1 : strat1 rows = some (i, i + 1) := by
    unfold strat1
    refine findSome?_range_first _ _ _ i (by omega) ?_ ?_
    · rw [hrow]
      exact if_pos hcond
    · intro j hj
      cases hj' : rows.get? j with
      | none => rfl
      | some row' => exact if_neg (hfirst j row' hj hj')
  unfold find_header_soft
  rw [hs1]

/-- C5 witness: the spec's scenario row
`"Description of Goods HSN/SAC Quantity Rate Amount"` with 5 tokens at
index 0 is selected by strategy 1, parsing resumes at row 1. -/
theorem c5_witness : find_header_soft [specHdrRow] = some (0, 0 + 1) :=
  c5_amended_strategy1 [specHdrRow] 0 specHdrRow (by omega) rfl
    (by refine ⟨?_, ?_⟩ <;> with_unfolding_all decide)
    (fun j row' hj _ => absurd hj (Nat.not_lt_zero j))

/-- C8 counterexample: the row `Invoice Amount In Words` (which the claim
lists as a stop marker) does not stop the table parser — it is buffered
as a description row, and the row after it still yields a line item. -/
theorem c8_counterexample :
    rowTextLower (c8rows.getD 1 []) = "invoice amount in words".data ∧
    parse_table c8rows 0 1 = some [c8item] := by
  constructor
  · with_unfolding_all decide
  · with_unfolding_all decide

/-- Helper: rows at and after the first totals-marker row contribute no
items — the row loop's result does not depend on anything from the
marker on. -/
theorem tableLoop_stops_at_marker (bounds : List (ℚ × ℚ)) (m : Row)
    (hm : isMarkerRow m = true) :
    ∀ (xs ys pending : List Row),
      tableLoop bounds pending (xs ++ m :: ys) = tableLoop bounds pending xs := by
  intro xs
  induction xs with
  | nil =>
    intro ys pending
    show tableLoop bounds pending (m :: ys) = tableLoop bounds pending []
    simp only [tableLoop, hm]
    rfl
  | cons x xs ih =>
    intro ys pending
    show tableLoop bounds pending (x :: (xs ++ m :: ys)) =
      tableLoop bounds pending (x :: xs)
    simp only [tableLoop]
    split
    · rfl
    · split
      · split
        · rw [ih]
        · rw [ih]
      · rw [ih]

/-- C8 (amended): the table parser (in its non-transposed mode) stops at
the first row matching `total|sub total|amount chargeable|round off|tax amount`
(case-insensitive, word-delimited) — the markers do *not* include
`invoice amount in words` — and produces no line item from that row or
any row after it: the result equals the loop run on the rows before the
marker alone. -/
theorem c8_amended_stop_condition (rows : List Row) (h s : ℕ) (hrow : Row)
    (xs ys : List Row) (m : Row)
    (hget : rows.get? h = some hrow)
    (htr : is_transposed_table rows s (min (s + 20) rows.length) = false)
    (hdrop : rows.drop s = xs ++ m :: ys)
    (hm : isMarkerRow m = true) :
    parse_table rows h s = some (tableLoop (compute_bounds hrow) [] xs) := by
  unfold parse_table
  rw [hget, htr, hdrop]
  simp only [Bool.false_eq_true, if_false]
  rw [tableLoop_stops_at_marker (compute_bounds hrow) m hm xs ys []]

/-- C8 witness for the amended claim: a `Total` row stops the parser;
the result is exactly the items of the single row before it. -/
theorem c8_amended_witness :
    parse_table c8wRows 0 1 =
      some (tableLoop (compute_bounds (c8wRows.getD 0 [])) []
        [c8wRows.getD 1 []]) :=
  c8_amended_stop_condition c8wRows 0 1 (c8wRows.getD 0 [])
    [c8wRows.getD 1 []] [c8wRows.getD 3 []] (c8wRows.getD 2 [])
    (by with_unfolding_all decide)
    (by with_unfolding_all decide)
    (by with_unfolding_all decide)
    (by with_unfolding_all decide)

/-- Helper: `recompute_totals_from_items` only touches the totals. -/
theorem recompute_totals_items (res : ExtractResult) :
    (recompute_totals_from_items res).items = res.items := rfl

/-- Helper: the items of a post-processed result are exactly the cleaned
items that pass the retention filter. -/
theorem postprocess_items_eq (r : ExtractResult) :
    (postprocess_extracted r).items = (r.items.map postprocItem).filter keepItem := by
  unfold postprocess_extracted
  dsimp only
  simp only [apply_ite ExtractResult.items, recompute_totals_items, ite_self]

/-- Helper: every result of the top-level extraction is a post-processed
result. -/
theorem extract_is_postprocessed (hdrF : HeaderFieldsFn)
    (fullText : List RawTok) (res : ExtractResult)
    (hres : extract_invoice_structured hdrF fullText = some res) :
    ∃ out, res = postprocess_extracted out := by
  unfold extract_invoice_structured at hres
  dsimp only at hres
  split at hres
  · exact Option.noConfusion hres
  · exact ⟨_, (Option.some.inj hres).symm⟩

/-- C2: every line item in the items list returned by the top-level
extraction (after post-processing) carries at least one of a non-null
taxable value, a non-null unit price, or a non-null HSN. -/
theorem c2_retention_invariant (hdrF : HeaderFieldsFn)
    (fullText : List RawTok) (res : ExtractResult) (it : Item)
    (hres : extract_invoice_structured hdrF fullText = some res)
    (hit : it ∈ res.items) :
    it.taxableValue ≠ none ∨ it.unitPrice ≠ none ∨ it.hsn ≠ none := by
  obtain ⟨out, hout⟩ := extract_is_postprocessed hdrF fullText res hres
  rw [hout, postprocess_items_eq] at hit
  have hkeep : keepItem it = true := (List.mem_filter.mp hit).2
  unfold keepItem at hkeep
  rw [Bool.or_eq_true, Bool.or_eq_true] at hkeep
  rcases hkeep with (h | h) | h
  · left
    intro hnone
    rw [hnone] at h
    exact absurd h (by decide)
  · right; left
    intro hnone
    rw [hnone] at h
    exact absurd h (by decide)
  · right; right
    intro hnone
    rw [hnone] at h
    exact absurd h (by decide)

/-- C2 witness: a concrete one-token document whose single retained item
carries a taxable value. -/
theorem c2_witness :
    w2item.taxableValue ≠ none ∨ w2item.unitPrice ≠ none ∨ w2item.hsn ≠ none :=
  c2_retention_invariant header_fields_block w2full w2res w2item
    (by with_unfolding_all rfl)
    (by with_unfolding_all decide)

/-- Helper: strategy 1 only returns an anchor index at which a row
exists. -/
theorem strat1_valid (rows : List Row) (hs : ℕ × ℕ)
    (h : strat1 rows = some hs) : (rows.get? hs.1).isSome := by
  unfold strat1 at h
  obtain ⟨i, _, hf⟩ := List.exists_of_findSome?_eq_some h
  cases hq : rows.get? i with
  | none => rw [hq] at hf; exact Option.noConfusion hf
  | some row =>
    rw [hq] at hf
    dsimp only at hf
    split at hf
    · cases hf
      simp only [List.get?_eq_getElem?] at hq
      simp [hq]
    · exact Option.noConfusion hf

/-- Helper: strategy 2 only returns an anchor index at which a row
exists. -/
theorem strat2_valid (rows : List Row) (hs : ℕ × ℕ)
    (h : strat2 rows = some hs) : (rows.get? hs.1).isSome := by
  unfold strat2 at h
  obtain ⟨i, _, hf⟩ := List.exists_of_findSome?_eq_some h
  cases hq : rows.get? i with
  | none => rw [hq] at hf; exact Option.noConfusion hf
  | some row =>
    rw [hq] at hf
    dsimp only at hf
    split at hf
    · cases hinner : (List.range' (i + 1) (min (i + 10) rows.length - (i + 1))).findSome?
          (fun j =>
            match rows.get? j with
            | some rj =>
              if 2 ≤ (reFindAll true numericTokPat (rowText rj)).length ∧
                 3 ≤ rj.length then some j else none
            | none => none) with
      | some j =>
        rw [hinner] at hf
        dsimp only at hf
        cases hf
        obtain ⟨j', _, hfj⟩ := List.exists_of_findSome?_eq_some hinner
        cases hq' : rows.get? j' with
        | none => rw [hq'] at hfj; exact Option.noConfusion hfj
        | some rj =>
          rw [hq'] at hfj
          dsimp only at hfj
          split at hfj
          · cases hfj
            simp only [List.get?_eq_getElem?] at hq'
            simp [hq']
          · exact Option.noConfusion hfj
      | none =>
        rw [hinner] at hf
        dsimp only at hf
        split at hf
        · cases hf
          simp only [List.get?_eq_getElem?] at hq
          simp [hq]
        · exact Option.noConfusion hf
    · exact Option.noConfusion hf

/-- Helper: strategy 2b only returns an anchor index at which a row
exists. -/
theorem strat2b_valid (rows : List Row) (hs : ℕ × ℕ)
    (h : strat2b rows = some hs) : (rows.get? hs.1).isSome := by
  unfold strat2b at h
  obtain ⟨i, _, hf⟩ := List.exists_of_findSome?_eq_some h
  cases hq : rows.get? i with
  | none => rw [hq] at hf; exact Option.noConfusion hf
  | some row =>
    rw [hq] at hf
    dsimp only at hf
    split at hf
    · cases hinner : (List.range' (i + 1) (min (i + 8) rows.length - (i + 1))).findSome?
          (fun j =>
            match rows.get? j with
            | some rj => if 4 ≤ rj.length then some j else none
            | none => none) with
      | some j =>
        rw [hinner] at hf
        dsimp only at hf
        cases hf
        obtain ⟨j', _, hfj⟩ := List.exists_of_findSome?_eq_some hinner
        cases hq' : rows.get? j' with
        | none => rw [hq'] at hfj; exact Option.noConfusion hfj
        | some rj =>
          rw [hq'] at hfj
          dsimp only at hfj
          split at hfj
          · cases hfj
            simp only [List.get?_eq_getElem?] at hq'
            simp [hq']
          · exact Option.noConfusion hfj
      | none =>
        rw [hinner] at hf
        dsimp only at hf
        cases hf
        simp only [List.get?_eq_getElem?] at hq
        simp [hq]
    · exact Option.noConfusion hf

/-- Helper: strategy 3 only returns an anchor index at which a row
exists. -/
theorem strat3_valid (rows : List Row) (hs : ℕ × ℕ)
    (h : strat3 rows = some hs) : (rows.get? hs.1).isSome := by
  unfold strat3 at h
  obtain ⟨i, _, hf⟩ := List.exists_of_findSome?_eq_some h
  cases hq : rows.get? i with
  | none => rw [hq] at hf; exact Option.noConfusion hf
  | some row =>
    rw [hq] at hf
    dsimp only at hf
    split at hf
    · cases hf
      simp only [List.get?_eq_getElem?] at hq
      simp [hq]
    · exact Option.noConfusion hf

/-- Helper: strategy 4 only returns an anchor index at which a row
exists. -/
theorem strat4_valid (rows : List Row) (hs : ℕ × ℕ)
    (h : strat4 rows = some hs) : (rows.get? hs.1).isSome := by
  unfold strat4 at h
  obtain ⟨i, _, hf⟩ := List.exists_of_findSome?_eq_some h
  cases hq : rows.get? i with
  | none => rw [hq] at hf; exact Option.noConfusion hf
  | some row =>
    rw [hq] at hf
    dsimp only at hf
    split at hf
    · cases hf
      simp only [List.get?_eq_getElem?] at hq
      simp [hq]
    · exact Option.noConfusion hf

/-- Helper: whatever the anchor ladder returns, its anchor index is a
valid row index. -/
theorem find_header_soft_valid (rows : List Row) (hs : ℕ × ℕ)
    (h : find_header_soft rows = some hs) : (rows.get? hs.1).isSome := by
  unfold find_header_soft at h
  cases h1 : strat1 rows with
  | some r => rw [h1] at h; cases h; exact strat1_valid rows _ h1
  | none =>
    rw [h1] at h
    cases h2 : strat2 rows with
    | some r => rw [h2] at h; cases h; exact strat2_valid rows _ h2
    | none =>
      rw [h2] at h
      cases h3 : strat2b rows with
      | some r => rw [h3] at h; cases h; exact strat2b_valid rows _ h3
      | none =>
        rw [h3] at h
        cases h4 : strat3 rows with
        | some r => rw [h4] at h; cases h; exact strat3_valid rows _ h4
        | none =>
          rw [h4] at h
          exact strat4_valid rows _ h

/-- Helper: `parse_table` succeeds whenever the anchor row exists. -/
theorem parse_table_isSome (rows : List Row) (h s : ℕ)
    (hg : (rows.get? h).isSome) : (parse_table rows h s).isSome := by
  obtain ⟨row, hrow⟩ := Option.isSome_iff_exists.mp hg
  unfold parse_table
  rw [hrow]
  dsimp only
  split <;> rfl

/-- C9: the top-level extraction never raises — for every input token
list (malformed tokens included) it returns a structured result; no
detection failure escapes, because every anchor index produced by the
strategy ladder is a valid row index and every other lookup in the
pipeline is guarded. -/
theorem c9_no_hard_failure (hdrF : HeaderFieldsFn) (fullText : List RawTok) :
    (extract_invoice_structured hdrF fullText).isSome = true := by
  unfold extract_invoice_structured
  dsimp only
  cases hfh : find_header_soft (group_rows (tokens_from_fulltext fullText) 16) with
  | none => rfl
  | some hs =>
    have hps := parse_table_isSome (group_rows (tokens_from_fulltext fullText) 16)
      hs.1 hs.2 (find_header_soft_valid _ hs hfh)
    obtain ⟨its, hits⟩ := Option.isSome_iff_exists.mp hps
    dsimp only
    rw [hits]
    rfl

/-- C4 counterexample: for the anchor row with lefts 0, 100, 200, the
bounds `(-1000012, 62)` and `(38, 162)` are both produced, are distinct,
and both contain 50 — so a token center does *not* lie in exactly one
bound (adjacent bounds overlap by twice the 12px margin). -/
theorem c4_counterexample :
    ((-1000012 : ℚ), (62 : ℚ)) ∈ compute_bounds [mkTok "a" 0, mkTok "b" 100, mkTok "c" 200] ∧
    ((38 : ℚ), (162 : ℚ)) ∈ compute_bounds [mkTok "a" 0, mkTok "b" 100, mkTok "c" 200] ∧
    (((-1000012 : ℚ), (62 : ℚ)) ≠ ((38 : ℚ), (162 : ℚ))) ∧
    ((-1000012 : ℚ) ≤ 50 ∧ (50 : ℚ) ≤ 62) ∧ ((38 : ℚ) ≤ 50 ∧ (50 : ℚ) ≤ 162) := by
  have h0 : ([mkTok "a" 0, mkTok "b" 100, mkTok "c" 200] : Row).map (·.left) =
      [0, 100, 200] := by with_unfolding_all rfl
  have hsort : List.insertionSort (· ≤ ·) ([0, 100, 200] : List ℚ) =
      [0, 100, 200] := by with_unfolding_all rfl
  have hmid : midpoints ([0, 100, 200] : List ℚ) = [50, 150] := by
    with_unfolding_all rfl
  have hbuild : buildBounds 12 (-1000000) ([50, 150] : List ℚ) =
      [(-1000012, 62), (38, 162), (138, 1000000)] := by with_unfolding_all rfl
  have hmerge : merge_small [((-1000012 : ℚ), (62 : ℚ)), (38, 162), (138, 1000000)] =
      [(-1000012, 62), (38, 162), (138, 1000000)] := by with_unfolding_all rfl
  have hcb : compute_bounds [mkTok "a" 0, mkTok "b" 100, mkTok "c" 200] =
      [(-1000012, 62), (38, 162), (138, 1000000)] := by
    unfold compute_bounds compute_bounds_xs
    rw [h0, if_neg (by norm_num), hsort]
    dsimp only
    rw [hmid, hbuild, hmerge]
  refine ⟨?_, ?_, ?_, ?_, ?_⟩
  · rw [hcb]; simp
  · rw [hcb]; simp
  · with_unfolding_all decide
  · constructor <;> norm_num
  · constructor <;> norm_num

/-- Helper: every midpoint is the average of two members of the list. -/
theorem midpoints_mem : ∀ (l : List ℚ) (z : ℚ), z ∈ midpoints l →
    ∃ u v, u ∈ l ∧ v ∈ l ∧ z = (u + v) / 2 := by
  intro l
  induction l with
  | nil => intro z hz; simp [midpoints] at hz
  | cons a l ih =>
    intro z hz
    cases l with
    | nil => simp [midpoints] at hz
    | cons b rest =>
      rw [show midpoints (a :: b :: rest) = (a + b) / 2 :: midpoints (b :: rest)
        from rfl] at hz
      rcases List.mem_cons.mp hz with h | h
      · exact ⟨a, b, by simp, by simp, h⟩
      · obtain ⟨u, v, hu, hv, he⟩ := ih z h
        exact ⟨u, v, List.mem_cons_of_mem a hu, List.mem_cons_of_mem a hv, he⟩

/-- Helper: midpoints of a sorted list are sorted. -/
theorem midpoints_pairwise : ∀ (l : List ℚ), l.Pairwise (· ≤ ·) →
    (midpoints l).Pairwise (· ≤ ·) := by
  intro l
  induction l with
  | nil => intro _; simp [midpoints]
  | cons a l ih =>
    intro hp
    cases l with
    | nil => simp [midpoints]
    | cons b rest =>
      have hp' : (b :: rest).Pairwise (· ≤ ·) := (List.pairwise_cons.mp hp).2
      rw [show midpoints (a :: b :: rest) = (a + b) / 2 :: midpoints (b :: rest)
        from rfl]
      refine List.Pairwise.cons ?_ (ih hp')
      intro z hz
      obtain ⟨u, v, hu, hv, he⟩ := midpoints_mem (b :: rest) z hz
      have hau : a ≤ u := (List.pairwise_cons.mp hp).1 u hu
      have hbv : b ≤ v := by
        rcases List.mem_cons.mp hv with rfl | hv'
        · exact le_refl _
        · exact (List.pairwise_cons.mp hp').1 v hv'
      rw [he]
      linarith

/-- Helper: the pre-merge bounds form a covering chain. -/
theorem buildBounds_chain (e : ℚ) (he : 0 ≤ e) :
    ∀ (mids : List ℚ) (left : ℚ),
      mids.Pairwise (· ≤ ·) →
      (∀ m ∈ mids, left ≤ m ∧ m ≤ 1000000 - e) →
      left ≤ 1000000 →
      boundsChain (buildBounds e left mids) := by
  intro mids
  induction mids with
  | nil =>
    intro left _ _ hl
    show (left - e : ℚ) ≤ 1000000
    linarith
  | cons m ms ih =>
    intro left hp hb hl
    have hm := hb m (by simp)
    have hp' : ms.Pairwise (· ≤ ·) := (List.pairwise_cons.mp hp).2
    have hb' : ∀ x ∈ ms, m ≤ x ∧ x ≤ 1000000 - e := fun x hx =>
      ⟨(List.pairwise_cons.mp hp).1 x hx, (hb x (List.mem_cons_of_mem m hx)).2⟩
    have hml : m ≤ 1000000 := by linarith [hm.2]
    have hrec := ih m hp' hb' hml
    cases ms with
    | nil =>
      refine ⟨?_, ?_, ?_, ?_⟩
      · show (left - e : ℚ) ≤ m + e
        linarith [hm.1]
      · show (m - e : ℚ) ≤ m + e
        linarith
      · show (m + e : ℚ) ≤ 1000000
        linarith [hm.2]
      · show (m - e : ℚ) ≤ 1000000
        linarith [hm.2]
    | cons m' ms' =>
      have hmm' : m ≤ m' := (List.pairwise_cons.mp hp).1 m' (by simp)
      refine ⟨?_, ?_, ?_, hrec⟩
      · show (left - e : ℚ) ≤ m + e
        linarith [hm.1]
      · show (m - e : ℚ) ≤ m + e
        linarith
      · show (m + e : ℚ) ≤ m' + e
        linarith

/-- Helper: the last pre-merge bound always ends at `1e6`. -/
theorem buildBounds_lastRight (e : ℚ) :
    ∀ (mids : List ℚ) (left : ℚ) (hd : ℚ × ℚ),
      lastRight hd (buildBounds e left mids) = 1000000 := by
  intro mids
  induction mids with
  | nil => intro left hd; rfl
  | cons m ms ih =>
    intro left hd
    show lastRight (left - e, m + e) (buildBounds e m ms) = 1000000
    exact ih m (left - e, m + e)

/-- Helper: the merge loop preserves coverage of the chain's span. -/
theorem mergeLoop_covers : ∀ (rest : List (ℚ × ℚ)) (last : ℚ × ℚ),
    boundsChain (last :: rest) →
    ∀ y : ℚ, last.1 ≤ y → y ≤ lastRight last rest →
    ∃ b ∈ mergeLoop last rest, b.1 ≤ y ∧ y ≤ b.2 := by
  intro rest
  induction rest with
  | nil =>
    intro last hc y h1 h2
    exact ⟨last, by simp [mergeLoop], h1, h2⟩
  | cons p rest' ih =>
    intro last hc y h1 h2
    obtain ⟨hl2, hp1, hr2, hch⟩ := hc
    rw [show mergeLoop last (p :: rest') =
      if p.2 - p.1 < 60 then mergeLoop (last.1, p.2) rest'
      else last :: mergeLoop p rest' from rfl]
    by_cases hm : p.2 - p.1 < 60
    · rw [if_pos hm]
      have hch' : boundsChain ((last.1, p.2) :: rest') := by
        cases rest' with
        | nil => show (last.1 : ℚ) ≤ p.2; linarith
        | cons q rest'' =>
          obtain ⟨hpq1, hq1, hq2, hch''⟩ := hch
          exact ⟨by linarith, hq1, hq2, hch''⟩
      have hlr : lastRight ((last.1, p.2)) rest' = lastRight last (p :: rest') := by
        cases rest' with
        | nil => rfl
        | cons q rest'' => rfl
      exact ih (last.1, p.2) hch' y h1 (by rw [hlr]; exact h2)
    · rw [if_neg hm]
      by_cases hy : y ≤ last.2
      · exact ⟨last, by simp, h1, hy⟩
      · have h1' : p.1 ≤ y := by
          have := lt_of_not_le hy
          linarith
        obtain ⟨b, hb, hbb⟩ := ih p hch y h1' h2
        exact ⟨b, List.mem_cons_of_mem last hb, hbb⟩

/-- C4 (amended): for an anchor row whose token lefts lie in the image
range `[0, 100000]`, every real number in `[-1e6, 1e6]` (in particular
every possible token center) lies in *at least one* bound of the column
model — the bounds are gap-free over that range, though adjacent bounds
overlap by up to twice the 12px margin, so "exactly one" fails. -/
theorem c4_amended_coverage (hr : Row)
    (hx : ∀ t ∈ hr, 0 ≤ t.left ∧ t.left ≤ 100000)
    (y : ℚ) (hy1 : -1000000 ≤ y) (hy2 : y ≤ 1000000) :
    ∃ b ∈ compute_bounds hr, b.1 ≤ y ∧ y ≤ b.2 := by
  unfold compute_bounds compute_bounds_xs
  by_cases hlen : (hr.map (·.left)).length < 3
  · rw [if_pos hlen]
    exact ⟨(-1000000, 1000000), by simp, hy1, hy2⟩
  · rw [if_neg hlen]
    dsimp only
    have hsortedP : (List.insertionSort (· ≤ ·) (hr.map (·.left))).Pairwise (· ≤ ·) := by
      have := List.sorted_insertionSort (· ≤ ·) (hr.map (·.left))
      exact this
    have hmem : ∀ x ∈ List.insertionSort (· ≤ ·) (hr.map (·.left)),
        0 ≤ x ∧ x ≤ 100000 := by
      intro x hx'
      have hx2 : x ∈ hr.map (·.left) :=
        (List.perm_insertionSort (· ≤ ·) (hr.map (·.left))).mem_iff.mp hx'
      obtain ⟨t, ht, rfl⟩ := List.mem_map.mp hx2
      exact hx t ht
    have hmidsP := midpoints_pairwise _ hsortedP
    have hmidsB : ∀ m ∈ midpoints (List.insertionSort (· ≤ ·) (hr.map (·.left))),
        (-1000000 : ℚ) ≤ m ∧ m ≤ 1000000 - 12 := by
      intro m hm
      obtain ⟨u, v, hu, hv, he⟩ := midpoints_mem _ m hm
      have h1 := hmem u hu
      have h2 := hmem v hv
      rw [he]
      constructor <;> linarith [h1.1, h1.2, h2.1, h2.2]
    have hchain : boundsChain (buildBounds 12 (-1000000)
        (midpoints (List.insertionSort (· ≤ ·) (hr.map (·.left))))) :=
      buildBounds_chain 12 (by norm_num) _ (-1000000) hmidsP hmidsB (by norm_num)
    obtain ⟨hd, tl, hbb, hhd⟩ : ∃ hd tl,
        buildBounds (12 : ℚ) (-1000000)
          (midpoints (List.insertionSort (· ≤ ·) (hr.map (·.left)))) = hd :: tl ∧
        hd.1 = -1000000 - 12 := by
      cases midpoints (List.insertionSort (· ≤ ·) (hr.map (·.left))) with
      | nil => exact ⟨_, _, rfl, rfl⟩
      | cons m ms => exact ⟨_, _, rfl, rfl⟩
    have hlast : lastRight hd tl = 1000000 := by
      have hx3 := buildBounds_lastRight 12
        (midpoints (List.insertionSort (· ≤ ·) (hr.map (·.left)))) (-1000000) hd
      rw [hbb] at hx3
      exact hx3
    rw [hbb] at hchain
    obtain ⟨b, hb, hbb2⟩ := mergeLoop_covers tl hd hchain y
      (by rw [hhd]; linarith) (by rw [hlast]; exact hy2)
    rw [hbb]
    exact ⟨b, hb, hbb2⟩

/-- C4 witness for the amended claim: the 3-token anchor row with lefts
0, 100, 200 and the token center 50. -/
theorem c4_amended_witness :
    ∃ b ∈ compute_bounds [mkTok "a" 0, mkTok "b" 100, mkTok "c" 200],
      b.1 ≤ (50 : ℚ) ∧ (50 : ℚ) ≤ b.2 :=
  c4_amended_coverage [mkTok "a" 0, mkTok "b" 100, mkTok "c" 200]
    (by
      intro t ht
      simp only [List.mem_cons, List.not_mem_nil, or_false] at ht
      rcases ht with rfl | rfl | rfl <;> exact ⟨by norm_num [mkTok], by norm_num [mkTok]⟩)
    50 (by norm_num) (by norm_num)
